import Mathlib

set_option maxRecDepth 20000
set_option maxHeartbeats 2000000

/-!  A shallow embedding, in Lean 4, of the chess position core of the
`mess` engine (the `pkg/chess/chess` component family: `bitboard.hpp`,
`square.hpp`, `moves.hpp`, `zobrist.hpp`, `castling.hpp`, `move.hpp`,
`position.hpp`, `movegen.hpp`, `board.hpp`, `fen.hpp`), together with
theorems checking the specification's claims about it.

Machine integers are modelled as `Nat` with explicit reduction modulo
`2 ^ 64` (or `2 ^ 16`, `2 ^ 8`) where the C++ relies on unsigned
wrap-around.  Enumerations (`Color`, `Piece`, `ColoredPiece`, `Square`,
castling `Side` and `Dimension`, move flags) are modelled by their
`uint8` representation values, exactly as the C++ stores them.
`std::array` fields are modelled as `List Nat` indexed with `List.getD`.
-/

namespace Chess

/-! ## Primitives: Color, Piece, ColoredPiece, Square, Direction -/

/-- `2 ^ 64`, the modulus of `uint64_t` arithmetic. -/
def U64 : Nat := 18446744073709551616

/-- `2 ^ 64 - 1`: all 64 bits set; `BitBoards::Full` and the mask used to
model `operator ~` on 64-bit values. -/
def M64 : Nat := 18446744073709551615

/-- `Color::White` (internal value 0). -/
def Color.White : Nat := 0

/-- `Color::Black` (internal value 1). -/
def Color.Black : Nat := 1

/-- `Color::operator !`: flips the lsb which represents the Color. -/
def oppColor (c : Nat) : Nat := c ^^^ 1

/-- `Piece` internal values: Pawn 0, Knight 1, Bishop 2, Rook 3, Queen 4,
King 5, None 6 (`piece.hpp`). -/
def Piece.Pawn : Nat := 0

def Piece.Knight : Nat := 1

def Piece.Bishop : Nat := 2

def Piece.Rook : Nat := 3

def Piece.Queen : Nat := 4

def Piece.King : Nat := 5

def Piece.None : Nat := 6

/-- `ColoredPiece::None` (internal value 12). -/
def ColoredPiece.None : Nat := 12

/-- `ColoredPiece(piece, color)`: `color * Piece::N + piece`. -/
def coloredPiece (piece color : Nat) : Nat := color * 6 + piece

/-- `ColoredPiece::Piece()`: `None` for `None`, otherwise `internal % 6`. -/
def ColoredPiece.piece (cp : Nat) : Nat := if cp = 12 then 6 else cp % 6

/-- `ColoredPiece::Color()`: `internal / Piece::N`. -/
def ColoredPiece.color (cp : Nat) : Nat := cp / 6

/-- `Square::None` (internal value 64). -/
def Square.None : Nat := 64

/-- `Square::File()`: `File::None` (8) for `Square::None`, else `internal % 8`. -/
def Square.file (s : Nat) : Nat := if s = 64 then 8 else s % 8

/-- `Square::Rank()`: `internal / 8`. -/
def Square.rank (s : Nat) : Nat := s / 8

/-- `Square::Diagonal()`: `7 + rank - file`. -/
def Square.diagonal (s : Nat) : Nat := 7 + Square.rank s - Square.file s

/-- `Square::AntiDiagonal()`: `rank + file`. -/
def Square.antiDiagonal (s : Nat) : Nat := Square.rank s + Square.file s

/-- `Square(file, rank)`: `rank * 8 + file`. -/
def Square.make (file rank : Nat) : Nat := rank * 8 + file

/-- `Square::operator >> (Direction)`: adds the (signed) direction offset to
the square's `uint8` representation and casts back to `uint8`. -/
def Square.shift (s : Nat) (d : Int) : Nat := (((s : Int) + d + 256) % 256).toNat

/-- Cardinal directions (`direction.hpp`): N = +8, E = +1, S = -8, W = -1. -/
def Directions.North : Int := 8

def Directions.East : Int := 1

def Directions.South : Int := -8

def Directions.West : Int := -1

def Directions.NorthEast : Int := 9

def Directions.NorthWest : Int := 7

def Directions.SouthEast : Int := -7

def Directions.SouthWest : Int := -9

/-- `Directions::Up(color)`: North for White, South for Black. -/
def Directions.Up (stm : Nat) : Int := if stm = Color.White then Directions.North else Directions.South

/-- `Directions::Down(color)`: South for White, North for Black. -/
def Directions.Down (stm : Nat) : Int := if stm = Color.White then Directions.South else Directions.North

/-! ## BitBoard (`bitboard.hpp`)

A `BitBoard` is a 64-bit set of squares, modelled as a `Nat < 2 ^ 64`. -/

/-- `BitBoard(square)`: `1ull << square` (reduced mod `2 ^ 64`; the C++ never
evaluates this at `Square::None`). -/
def sqBB (s : Nat) : Nat := (1 <<< s) % U64

/-- `BitBoard::Some`: the set is non-empty. -/
def BitBoard.Some (b : Nat) : Bool := b != 0

/-- `BitBoard::Empty`: the set is empty. -/
def BitBoard.IsEmpty (b : Nat) : Bool := b == 0

/-- `BitBoard::Several`: more than one element (`internal & (internal - 1)`). -/
def BitBoard.Several (b : Nat) : Bool := (b &&& (b - 1)) != 0

/-- `BitBoard::Singular`: exactly one element. -/
def BitBoard.Singular (b : Nat) : Bool := BitBoard.Some b && !BitBoard.Several b

/-- Helper loop for `PopCount`: repeatedly pops the lsb (64 bits of fuel
suffice for any 64-bit value). -/
def popCountAux : Nat → Nat → Nat
  | 0, _ => 0
  | (f+1), b => if b = 0 then 0 else popCountAux f (b &&& (b - 1)) + 1

/-- `BitBoard::PopCount`: `std::popcount`, the number of elements. -/
def BitBoard.PopCount (b : Nat) : Nat := popCountAux 64 b

/-- `BitBoard::IsDisjoint`. -/
def BitBoard.IsDisjoint (a b : Nat) : Bool := a &&& b == 0

/-- `BitBoard::operator []`: membership of a square. -/
def BitBoard.mem (b s : Nat) : Bool := b &&& sqBB s != 0

/-- `BitBoard::LSB`: `std::countr_zero`, i.e. the index of the least
significant set bit, or 64 when the BitBoard is empty.  Computed by binary
search over the six bit-index bits. -/
def BitBoard.LSB (b : Nat) : Nat :=
  if b = 0 then 64 else
  let n5 := if b &&& 4294967295 = 0 then 32 else 0
  let b5 := b >>> n5
  let n4 := if b5 &&& 65535 = 0 then 16 else 0
  let b4 := b5 >>> n4
  let n3 := if b4 &&& 255 = 0 then 8 else 0
  let b3 := b4 >>> n3
  let n2 := if b3 &&& 15 = 0 then 4 else 0
  let b2 := b3 >>> n2
  let n1 := if b2 &&& 3 = 0 then 2 else 0
  let b1 := b2 >>> n1
  let n0 := if b1 &&& 1 = 0 then 1 else 0
  n5 + n4 + n3 + n2 + n1 + n0

/-- `BitBoard::Flip(square)`: toggles a square's bit. -/
def BitBoard.Flip (b s : Nat) : Nat := b ^^^ sqBB s

/-- The file-A and file-H masks used by the directional shift. -/
def NOT_FILE_A : Nat := 18374403900871474942

def NOT_FILE_H : Nat := 9187201950435737471

/-- `BitBoard::operator >> (Direction)`: directional shift with edge-file
masking for east/west components; unknown directions are no-ops. -/
def BitBoard.shift (b : Nat) (d : Int) : Nat :=
  if d = 8 ∨ d = 16 then (b <<< d.toNat) % U64
  else if d = -8 ∨ d = -16 then b >>> (-d).toNat
  else if d = -1 ∨ d = -9 then (b &&& NOT_FILE_A) >>> (-d).toNat
  else if d = 7 then ((b &&& NOT_FILE_A) <<< 7) % U64
  else if d = 1 ∨ d = 9 then ((b &&& NOT_FILE_H) <<< d.toNat) % U64
  else if d = -7 then (b &&& NOT_FILE_H) >>> 7
  else b

/-- The 256-entry byte-reversal lookup table of `bitboard.hpp` (the values
produced by its `R2`/`R4`/`R6` macro expansion): entry `v` is the 8-bit
bit-reversal of `v`. -/
def BitReverseTable256 : List Nat := [0, 128, 64, 192, 32, 160, 96, 224, 16, 144, 80, 208, 48, 176, 112, 240,
  8, 136, 72, 200, 40, 168, 104, 232, 24, 152, 88, 216, 56, 184, 120, 248,
  4, 132, 68, 196, 36, 164, 100, 228, 20, 148, 84, 212, 52, 180, 116, 244,
  12, 140, 76, 204, 44, 172, 108, 236, 28, 156, 92, 220, 60, 188, 124, 252,
  2, 130, 66, 194, 34, 162, 98, 226, 18, 146, 82, 210, 50, 178, 114, 242,
  10, 138, 74, 202, 42, 170, 106, 234, 26, 154, 90, 218, 58, 186, 122, 250,
  6, 134, 70, 198, 38, 166, 102, 230, 22, 150, 86, 214, 54, 182, 118, 246,
  14, 142, 78, 206, 46, 174, 110, 238, 30, 158, 94, 222, 62, 190, 126, 254,
  1, 129, 65, 193, 33, 161, 97, 225, 17, 145, 81, 209, 49, 177, 113, 241,
  9, 137, 73, 201, 41, 169, 105, 233, 25, 153, 89, 217, 57, 185, 121, 249,
  5, 133, 69, 197, 37, 165, 101, 229, 21, 149, 85, 213, 53, 181, 117, 245,
  13, 141, 77, 205, 45, 173, 109, 237, 29, 157, 93, 221, 61, 189, 125, 253,
  3, 131, 67, 195, 35, 163, 99, 227, 19, 147, 83, 211, 51, 179, 115, 243,
  11, 139, 75, 203, 43, 171, 107, 235, 27, 155, 91, 219, 59, 187, 123, 251,
  7, 135, 71, 199, 39, 167, 103, 231, 23, 151, 87, 215, 55, 183, 119, 247,
  15, 143, 79, 207, 47, 175, 111, 239, 31, 159, 95, 223, 63, 191, 127, 255]

/-- The same table packed into a single `Nat`, byte `v` of which is entry `v`;
used so that kernel evaluation of `reverse` is a handful of GMP operations
instead of a 256-step list traversal.  `bitRevTable_eq` checks it against the
table above. -/
def bitRevPacked : Nat := 32253762193591572055346338519429903256593653763092481845412906392804272971300008895109007867075718708080790624855411634328727630485750296583931881432349490852848449668716434754128625983920636448188137131558410744599868966874648611003977641143363508128046504566347240856608917520156139064737508203304313469079446687072731176403564449082691204929167187717889828996516196860976205250518396857714681452244928693924915344235647209023742288890333443270613307484318679664633890694771906385087998933019593342630195886302313657458188221266188503582435493596547092064249462477316887452330819761194642909336265304536697486213120

/-- Table lookup `BitReverseTable256[v]`, via the packed table. -/
def revByte (v : Nat) : Nat := (bitRevPacked >>> (8 * v)) &&& 255

/-- The packed byte-reversal table agrees with the literal table copied from
the source. -/
theorem bitRevTable_eq : ∀ v < 256, revByte v = (BitReverseTable256.getD v 0) := by decide!

/-- `BitBoard::reverse`: reverses the bits of a 64-bit number by reversing
each byte via the lookup table and appending the bytes in reverse order. -/
def BitBoard.reverse (n : Nat) : Nat :=
  (revByte ((n >>> 0) &&& 255) <<< 56) |||
  (revByte ((n >>> 8) &&& 255) <<< 48) |||
  (revByte ((n >>> 16) &&& 255) <<< 40) |||
  (revByte ((n >>> 24) &&& 255) <<< 32) |||
  (revByte ((n >>> 32) &&& 255) <<< 24) |||
  (revByte ((n >>> 40) &&& 255) <<< 16) |||
  (revByte ((n >>> 48) &&& 255) <<< 8) |||
  (revByte ((n >>> 56) &&& 255) <<< 0)

/-- 64-bit wrap-around subtraction `a - b` (`a` is assumed `< 2 ^ 64`, `b`
arbitrary; the C++ computes `b` itself mod `2 ^ 64` first). -/
def sub64 (a b : Nat) : Nat := (a + U64 - b % U64) % U64

/-- `BitBoard::Hyperbola(square, blockers, mask)`: the Hyperbola Quintessence
`o - 2r` trick for single-ray slider attacks. -/
def BitBoard.Hyperbola (square blockers mask : Nat) : Nat :=
  let r := sqBB square
  let o := blockers &&& mask
  (sub64 o (2 * r) ^^^ BitBoard.reverse (sub64 (BitBoard.reverse o) (2 * BitBoard.reverse r))) &&& mask

/-! ## BitBoards namespace: constant boards, lines, between (`bitboard.hpp`) -/

def BitBoards.Empty : Nat := 0

def BitBoards.Full : Nat := M64

/-- `BitBoards::File(file)`. -/
def BitBoards.File (f : Nat) : Nat :=
  [72340172838076673, 144680345676153346, 289360691352306692, 578721382704613384,
   1157442765409226768, 2314885530818453536, 4629771061636907072, 9259542123273814144].getD f 0

/-- `BitBoards::Rank(rank)`. -/
def BitBoards.Rank (r : Nat) : Nat :=
  [255, 65280, 16711680, 4278190080, 1095216660480, 280375465082880,
   71776119061217280, 18374686479671623680].getD r 0

/-- `BitBoards::Diagonal(diagonal)`. -/
def BitBoards.Diagonal (d : Nat) : Nat :=
  [128, 32832, 8405024, 2151686160, 550831656968, 141012904183812,
   36099303471055874, 9241421688590303745, 4620710844295151872,
   2310355422147575808, 1155177711073755136, 577588855528488960,
   288794425616760832, 144396663052566528, 72057594037927936].getD d 0

/-- `BitBoards::AntiDiagonal(antiDiagonal)`. -/
def BitBoards.AntiDiagonal (d : Nat) : Nat :=
  [1, 258, 66052, 16909320, 4328785936, 1108169199648, 283691315109952,
   72624976668147840, 145249953336295424, 290499906672525312,
   580999813328273408, 1161999622361579520, 2323998145211531264,
   4647714815446351872, 9223372036854775808].getD d 0

/-- The body of the compile-time `between` table generator of
`bitboard.hpp`: the common-line mask selection followed by the two
`Hyperbola` calls.  `BitBoards::Between(a, b)` looks this value up in the
precomputed table; we evaluate the generator directly. -/
def BitBoards.Between (sq1 sq2 : Nat) : Nat :=
  let mask :=
    if Square.diagonal sq1 = Square.diagonal sq2 then BitBoards.Diagonal (Square.diagonal sq1)
    else if Square.antiDiagonal sq1 = Square.antiDiagonal sq2 then BitBoards.AntiDiagonal (Square.antiDiagonal sq1)
    else if Square.file sq1 = Square.file sq2 then BitBoards.File (Square.file sq1)
    else if Square.rank sq1 = Square.rank sq2 then BitBoards.Rank (Square.rank sq1)
    else BitBoards.Empty
  if mask = 0 ∨ sq1 = sq2 then 0
  else
    let blockers := sqBB sq1 ||| sqBB sq2
    (BitBoard.Hyperbola sq1 blockers mask &&& BitBoard.Hyperbola sq2 blockers mask) &&& (M64 ^^^ blockers)

/-- `BitBoards::Between1`: between set including the first square. -/
def BitBoards.Between1 (sq1 sq2 : Nat) : Nat := BitBoards.Between sq1 sq2 ||| sqBB sq1

/-- `BitBoards::Between2`: between set including the second square. -/
def BitBoards.Between2 (sq1 sq2 : Nat) : Nat := BitBoards.Between sq1 sq2 ||| sqBB sq2

/-- `BitBoards::Between12`: between set including both squares. -/
def BitBoards.Between12 (sq1 sq2 : Nat) : Nat := BitBoards.Between sq1 sq2 ||| sqBB sq1 ||| sqBB sq2

/-! ## MoveTable (`moves.hpp`)

The pawn, knight and king attack tables are literal constants in the source.
The sliding attacks are looked up in a Black-Magic hash table whose entries
are produced by `bishopSlow` / `rookSlow` (Hyperbola over the two relevant
lines); construction asserts that no index collision overwrites a differing
value, so the lookup agrees with the slow functions, which we evaluate
directly. -/

/-- `MoveTable::pawn` (per-color pawn capture boards). -/
def MoveTable.pawnW : List Nat := [512, 1280, 2560, 5120,
  10240, 20480, 40960, 16384,
  131072, 327680, 655360, 1310720,
  2621440, 5242880, 10485760, 4194304,
  33554432, 83886080, 167772160, 335544320,
  671088640, 1342177280, 2684354560, 1073741824,
  8589934592, 21474836480, 42949672960, 85899345920,
  171798691840, 343597383680, 687194767360, 274877906944,
  2199023255552, 5497558138880, 10995116277760, 21990232555520,
  43980465111040, 87960930222080, 175921860444160, 70368744177664,
  562949953421312, 1407374883553280, 2814749767106560, 5629499534213120,
  11258999068426240, 22517998136852480, 45035996273704960, 18014398509481984,
  144115188075855872, 360287970189639680, 720575940379279360, 1441151880758558720,
  2882303761517117440, 5764607523034234880, 11529215046068469760, 4611686018427387904,
  0, 0, 0, 0,
  0, 0, 0, 0]

def MoveTable.pawnB : List Nat := [0, 0, 0, 0,
  0, 0, 0, 0,
  2, 5, 10, 20,
  40, 80, 160, 64,
  512, 1280, 2560, 5120,
  10240, 20480, 40960, 16384,
  131072, 327680, 655360, 1310720,
  2621440, 5242880, 10485760, 4194304,
  33554432, 83886080, 167772160, 335544320,
  671088640, 1342177280, 2684354560, 1073741824,
  8589934592, 21474836480, 42949672960, 85899345920,
  171798691840, 343597383680, 687194767360, 274877906944,
  2199023255552, 5497558138880, 10995116277760, 21990232555520,
  43980465111040, 87960930222080, 175921860444160, 70368744177664,
  562949953421312, 1407374883553280, 2814749767106560, 5629499534213120,
  11258999068426240, 22517998136852480, 45035996273704960, 18014398509481984]

/-- `MoveTable::Pawn(color, square)`. -/
def MoveTable.Pawn (color square : Nat) : Nat :=
  (if color = 0 then MoveTable.pawnW else MoveTable.pawnB).getD square 0

/-- `MoveTable::knight`. -/
def MoveTable.knightTbl : List Nat := [132096, 329728, 659712, 1319424,
  2638848, 5277696, 10489856, 4202496,
  33816580, 84410376, 168886289, 337772578,
  675545156, 1351090312, 2685403152, 1075839008,
  8657044482, 21609056261, 43234889994, 86469779988,
  172939559976, 345879119952, 687463207072, 275414786112,
  2216203387392, 5531918402816, 11068131838464, 22136263676928,
  44272527353856, 88545054707712, 175990581010432, 70506185244672,
  567348067172352, 1416171111120896, 2833441750646784, 5666883501293568,
  11333767002587136, 22667534005174272, 45053588738670592, 18049583422636032,
  145241105196122112, 362539804446949376, 725361088165576704, 1450722176331153408,
  2901444352662306816, 5802888705324613632, 11533718717099671552, 4620693356194824192,
  288234782788157440, 576469569871282176, 1224997833292120064, 2449995666584240128,
  4899991333168480256, 9799982666336960512, 1152939783987658752, 2305878468463689728,
  1128098930098176, 2257297371824128, 4796069720358912, 9592139440717824,
  19184278881435648, 38368557762871296, 4679521487814656, 9077567998918656]

/-- `MoveTable::Knight(square)`. -/
def MoveTable.Knight (square : Nat) : Nat := MoveTable.knightTbl.getD square 0

/-- `MoveTable::king`. -/
def MoveTable.kingTbl : List Nat := [770, 1797, 3594, 7188,
  14376, 28752, 57504, 49216,
  197123, 460039, 920078, 1840156,
  3680312, 7360624, 14721248, 12599488,
  50463488, 117769984, 235539968, 471079936,
  942159872, 1884319744, 3768639488, 3225468928,
  12918652928, 30149115904, 60298231808, 120596463616,
  241192927232, 482385854464, 964771708928, 825720045568,
  3307175149568, 7718173671424, 15436347342848, 30872694685696,
  61745389371392, 123490778742784, 246981557485568, 211384331665408,
  846636838289408, 1975852459884544, 3951704919769088, 7903409839538176,
  15806819679076352, 31613639358152704, 63227278716305408, 54114388906344448,
  216739030602088448, 505818229730443264, 1011636459460886528, 2023272918921773056,
  4046545837843546112, 8093091675687092224, 16186183351374184448, 13853283560024178688,
  144959613005987840, 362258295026614272, 724516590053228544, 1449033180106457088,
  2898066360212914176, 5796132720425828352, 11592265440851656704, 4665729213955833856]

/-- `MoveTable::King(square)`. -/
def MoveTable.King (square : Nat) : Nat := MoveTable.kingTbl.getD square 0

/-- `MoveTable::bishopSlow`: Hyperbola along the square's diagonal and
anti-diagonal. -/
def MoveTable.bishopSlow (square blockers : Nat) : Nat :=
  BitBoard.Hyperbola square blockers (BitBoards.Diagonal (Square.diagonal square)) |||
  BitBoard.Hyperbola square blockers (BitBoards.AntiDiagonal (Square.antiDiagonal square))

/-- `MoveTable::rookSlow`: Hyperbola along the square's file and rank. -/
def MoveTable.rookSlow (square blockers : Nat) : Nat :=
  BitBoard.Hyperbola square blockers (BitBoards.File (Square.file square)) |||
  BitBoard.Hyperbola square blockers (BitBoards.Rank (Square.rank square))

/-- `MoveTable::Bishop(square, blockers)` (magic-table lookup of the
`bishopSlow` value). -/
def MoveTable.Bishop (square blockers : Nat) : Nat := MoveTable.bishopSlow square blockers

/-- `MoveTable::Rook(square, blockers)` (magic-table lookup of the
`rookSlow` value). -/
def MoveTable.Rook (square blockers : Nat) : Nat := MoveTable.rookSlow square blockers


/-! ## Zobrist hashing (`zobrist.hpp`)

`Hash` is a 64-bit XOR accumulator; both `+` and `-` on hashes are XOR. -/

namespace Keys

/-- `Keys::psqt`: the per-(ColoredPiece, Square) hash keys. -/
def psqt : List (List Nat) :=
  [[591679071752537765, 11781298203991720739, 17774509420834274491, 93833316982319649,
  5077288827755375591, 12650468822090308278, 7282142511083249914, 10536503665313592279,
  4539792784031873725, 2841870292508388689, 15413206348252250872, 7678569077154129441,
  13346546310876667408, 18288271767696598454, 10369369943721775254, 18081987910875800766,
  5538285989180528017, 1561342000895978098, 344529452680813775, 12666574946949763448,
  11485456468243178719, 7930595158480463155, 14302725423041560508, 14331261293281981139,
  4456874005134181239, 2824504039224593559, 10380971965294849792, 15120440200421969569,
  2459658218254782268, 3478717432759217624, 3378985187684316967, 9696037458963191704,
  13098241107727776933, 16711523013166202616, 10079083771611825891, 14137347994420603547,
  4791805899784156187, 6078389034317276724, 5994547221653596060, 16213379374441749196,
  4600174966381648954, 2382793282151591793, 5441064086789571698, 13211067155709920737,
  8095577678192451481, 12870220845239618167, 18366225606586112739, 1482740430229529117,
  18398763828894394702, 12894175299039183743, 5973205243991449651, 16073805277627490771,
  11840382123049768615, 16782637305176790952, 16565939816889406374, 7611013259146743987,
  4325631834421711187, 7084652077183601842, 14113904950837697704, 6952439085241219742,
  11697893679396085013, 15932411745698688381, 333938476871428781, 10094356940478519713],
   [8854028305631117351, 18264149368209609558, 18152850504025660547, 445125824226036916,
  7445032221575161576, 5887372625995221418, 12579614965563241976, 15542129933905340102,
  4278411582816540073, 7817987688731403418, 16765308846548980593, 15594655397588023405,
  11116801254932199266, 11592572287770353464, 10698558469286656858, 263236209937302172,
  15461982991340303336, 3043744698521235658, 1070442759222213040, 650534245804607543,
  5943000432800778858, 26206987068637543, 16737080395141468053, 13977415469856941557,
  1052117838564742180, 9424311196719389450, 12167498318705983564, 4301764225574437137,
  17360266336634281276, 13868884065264943813, 15952283905104982306, 4998386290424363477,
  4893239286087369377, 17573528852960048629, 2412201799238683587, 16517545668683925387,
  16978748896271686395, 8830712609912112615, 244676446090624528, 10801320743593590304,
  13531918303924845431, 10527125009130628070, 17495106538955645767, 14203433425689676251,
  13760149572603586785, 1273129856199637694, 3154213753511759364, 12760143787594064657,
  1600035040276021173, 5414819345072334853, 7201040945210650872, 11015789609492649674,
  7712150959425383900, 8543311100722720016, 13076185511676908731, 3922562784470822468,
  2780562387024492132, 6697120216501611455, 13480343126040452106, 12173667680050468927,
  3302171945877565923, 16568602182162993491, 14953223006496535120, 16457941142416543492],
   [2945262940327718556, 3775538624233802005, 4292201895252289600, 16433809973923446677,
  1284774014851141252, 18314932087213148495, 8946796353798605717, 16445820069092145103,
  7588664147775519679, 12896594212779880816, 14935880823937687725, 13400879436137989525,
  13846969535995712591, 12484917729738156524, 17882592831712409952, 16637473249645425632,
  15098223454147433904, 17631249017957605294, 12582001597670293135, 17902661106057732664,
  10274060743048400565, 12005958760542442625, 6324932172735347303, 17192330553585486663,
  9422872207407330841, 3177237980255163711, 14998024116488875998, 705793604453777656,
  11327568552142987041, 7029368612848231507, 11062860980165499825, 2900628512702115887,
  308431256844078091, 752802454931337639, 5576583881995601144, 8733594096989903760,
  290737499942622970, 8992780576699235245, 10425616809589311900, 5493674620779310265,
  12589103349525344891, 14857852059215963628, 13495551423272463104, 6944056268429507318,
  3988842613368812515, 14815775969275954512, 17868612272134391879, 8436706119115607049,
  7555807622404432493, 9144495607954586305, 6794801016890317083, 6072558259768997948,
  10941535447546794938, 14043502401785556544, 8362621443508695308, 17736840905212253027,
  2733031211210449030, 4350365705834634871, 1100550212031776323, 17430963890314521917,
  7470064030368587841, 13387014036020469860, 7078824284187344392, 12312007608706932222],
   [3826719064958106391, 17580452432494632735, 4372818848456885156, 20778095608392735,
  9517712183106565981, 16772576131911258204, 12158847832281029501, 18318866654963083744,
  14355784966049388499, 1442237715923966096, 16767620159370203923, 13501017873225644439,
  12414460951753850741, 1630390626826320339, 11056926288496765292, 17514919132679636196,
  6737125905271376420, 3156370395448333753, 7372374977020439436, 5277883516136612451,
  16544956564115640970, 14431129579433994133, 10776067565185448, 15235680854177679657,
  12767627681826077225, 1324675096273909386, 3456463189867507715, 9195964142578403484,
  10627443539470127577, 7083655917886846512, 14734414825071094346, 8833975264052769557,
  2965232458494052289, 12786367183060552144, 6364751811635930008, 12304694438192434386,
  4420057912710567321, 13121826629733594974, 3295424378969736960, 16543444358261923928,
  13665696745413941685, 3585618043384929225, 14758422515963078108, 5444185746065710993,
  6217807121864929894, 7617121805124236390, 2176332518208481987, 1435617355844826626,
  17897291909516933347, 17430612766366810879, 13845907184570465897, 3432307431600566936,
  2532253559171451888, 11643128737472459646, 13606171979107604790, 10012509558550373270,
  5587706015190365982, 18189230678861289336, 5637318834313874969, 4728172345191419793,
  13287099661014164329, 8475766932330124954, 2781312650135424674, 10552294945874175633],
   [14116194119706301666, 908994258594572803, 3835251526534030662, 3902806174142003247,
  8404113168045990162, 10605456791970677788, 8371724936653327204, 10149265301602815302,
  10280163375965480302, 12878458563073396434, 1480273033205949154, 15420639285122262859,
  16040433549230388361, 10889445127567090568, 7154846977618541400, 15324267473561911299,
  9123044315927273855, 18178395620988860923, 13937825686985326355, 6208640256728026680,
  17803354189602776349, 8168466387959732965, 4747388335999020093, 8076893647775627477,
  135355862477779318, 13727020784074293322, 16471001867829363208, 3944848361583366045,
  6153835027004876065, 17541053953916494135, 830442639195732299, 5707759661195251524,
  16745928189385382169, 13853872449862111272, 10763276423780512808, 528748578239178413,
  1195366693239264477, 16072813688416096526, 9411878730995839744, 14250860229846220116,
  3391112600086567492, 11283764167692931512, 1672248607577385754, 2130286739811077583,
  18311727561747759139, 974583822133342724, 5061116103402273638, 3126855720952116346,
  578870949780164607, 3776778176701636327, 14213795876687685078, 5613780124034108946,
  6069741268072432820, 8893641350514130178, 15249957078178864452, 18092583129505773527,
  11393903435307203091, 8119660695860781220, 13766130452052543028, 7096579372531132405,
  7459026647266724422, 5897616920394564481, 4162427946331299898, 2527789185948800525],
   [17290988795360054066, 5240905960030703813, 12532957579127022568, 7321214839249116978,
  17188130528816882357, 13649660060729335176, 7877670809777050873, 8603165736220767331,
  3731409983944574110, 14311591814980160037, 16719365103710912831, 15645061390881301878,
  15313601992567477463, 558437165307320475, 10107592147679710958, 217058993405149273,
  11583857652496458642, 12813267508475749642, 12801463184548517903, 10205205656182355892,
  12009517757124415757, 11711220569788417590, 601506575385147719, 2403800598476663693,
  3185273191806365666, 16311384682203900813, 2147738008043402447, 11784653004849107439,
  11363702615030984814, 4459820841160151625, 17238855191434604666, 16533107622905015899,
  12580437090734268666, 9002238121826321187, 7209727037264965188, 15210303941751662984,
  5957580827072516578, 16077971979351817631, 7451935491114626499, 14243752318712699139,
  12737894796843349185, 1351996896321498360, 4395539424431256646, 14636926406778905296,
  10637364485216545239, 4709900282812548306, 14703591130731831913, 1476367765688281237,
  4113914727206496161, 8066049843497142643, 7809561412546830570, 4879538739185105394,
  9498083046807871856, 17559505952950827343, 11763387757765891631, 10055035698587107604,
  12844734664424373030, 330991544207939447, 8508732305896661743, 11153570973223855023,
  10238055872248257461, 1773280948989896239, 8300833427522849187, 10832779467616436194],
   [11781789245711860189, 2747882707407274161, 3724767368808293169, 10298180063630105197,
  10746438658164496957, 16037040440297371558, 17588125462232966688, 6880843334474042246,
  560415017990002212, 6626394159937994533, 2670333323665803600, 4280458366389177326,
  1467978672011198404, 7620133404071416883, 13350367343504972530, 10138430730509076413,
  6785953884329063615, 4006903721835701728, 17529175408771439641, 2257868868401674686,
  16350586259217027048, 12792669610269240489, 15445432911128260212, 3830919760132254685,
  17463139367032047470, 15002266175994648649, 17680514289072042202, 362761448860517629,
  2620716836644167551, 10876826577342073644, 14704635783604247913, 8370308497378149181,
  16902199073103511157, 4712050710770633961, 2335277171236964126, 15454330651988402294,
  6039398895644425870, 5330935207425949713, 6844204079868621004, 15018633515897982115,
  5869887878873962697, 9619421978703093664, 7065039212033014872, 14085021312833583897,
  17738639966636660046, 18274309123980813514, 16007640215959475868, 4326793000252505639,
  11694193434453531305, 15789397716808962025, 8672273831614123897, 6109915657282875177,
  6240221177136276484, 17650760467278016265, 13635783915766085055, 17178975703249397658,
  690100752037560272, 846594232046156050, 11437611220054444781, 1050411833588837386,
  10485589741397417446, 12844414679888429939, 6491358656106542835, 12575464921310399912],
   [14923825269739949453, 18375002115249413557, 3423036550911737589, 15250861506191355802,
  15031961129285356212, 15435012606837965840, 6304673951675292305, 12785716655315370815,
  9808873325341612945, 9783992785966697331, 18138650430907468530, 18431297401347671031,
  18148129570815566817, 12696743950740820713, 1854845205476015706, 12865777516920439176,
  15636159047245426328, 17373407353156678628, 2495834645782650553, 11247757644603045972,
  17130748698210142189, 11422966446976074719, 1595016003613213710, 3899856913033553150,
  15470414105568996654, 2572459120480840982, 14288318049370965601, 4034656711994978492,
  3619462250265206907, 12564616267900212223, 6563888989859451823, 2454157599688795602,
  122761158351497116, 4118064480546384385, 13825342760651713002, 3757958894065091138,
  3348351562535718824, 11085064257829065607, 4791949565677098244, 16741859899153424134,
  13552228277894027114, 18043793947072687525, 18232133385309552782, 17162542170033385071,
  17966719644677930276, 4126374944389900134, 7694029693525104626, 7844796758498075948,
  15171322352384637386, 4901284706517591019, 11550611493505829690, 8591758722916550176,
  6614280899913466481, 15659292666557594854, 8334845918197067198, 14303347218899317731,
  18185681713739197231, 10010957749676186008, 6151588837035247399, 15955998980864570780,
  14725804664707294906, 9071111217904025772, 4268551186589045976, 3787505694838293655],
   [3463765996898474975, 1419043948633899671, 4738255775972431200, 10880687006345860054,
  6083956890523873398, 15399367780949709721, 10077652868536637496, 4763774200646997281,
  2058719554631509711, 16245257579300202929, 12549234361408101229, 5132111825598353706,
  13210867931726967807, 8049587883156206974, 14208790774466773366, 15004789243215417478,
  2705161721287640173, 6606951690346399114, 9038858141657157738, 9864507686211087503,
  8174211780307618304, 16060351410629081351, 5484951598904056885, 12456759525904287919,
  8919252620379965524, 15501107657356591656, 3242949188225361282, 5926058172544675863,
  6405123151097452666, 172567736958909523, 17292315564005737229, 13464278685013338817,
  3686053955562449182, 8857017014241158725, 15421895718306499875, 3815913251318905694,
  3432648465599995302, 818320788389300537, 4071520112108071604, 13295466432639272442,
  2426572569594491679, 10076303268977391406, 8784192232334006419, 2997181738853009670,
  15770398685934330580, 13017264784195056557, 4330776497582490757, 10934498588458332802,
  10356579632341837397, 2098241031318749487, 14789448409803449028, 11251433970760721438,
  7224004101031043677, 15038935143876354117, 13215483265469582733, 1462298635979286935,
  5759284467508932139, 5761810302276021825, 1946852319481058342, 8779292626819401953,
  9980275774854520963, 9018156077605645253, 10175632970326281074, 17670251009423356428],
   [2047473063754745880, 4129462703004022451, 10030514736718131075, 8457187454173219884,
  675824455430313366, 15722708499135010396, 1416150021210949828, 18340753630988628266,
  4279562020148953383, 7599717795808621650, 8493385059263161629, 5448373608430482181,
  7975000343659144004, 3661443877569162353, 17436434418308603210, 7723061412912586436,
  12478269109366344372, 5260527761162561230, 3664808336308943032, 12246522629121956498,
  11421384233946319246, 10711232448204740396, 394033332107778027, 1653867462011650260,
  10614247855083729040, 3511207051989217747, 14828688729293007936, 12730238737606105501,
  9131161340116597330, 10475424158865388660, 12216784836515690585, 12605719261947498045,
  55059904350528673, 5668017292185949458, 5318848626170854652, 5812165408168894719,
  12436591089168384586, 11456184110470635333, 17354703890556504985, 12819708191444916183,
  2051969874001439467, 9752086654524583546, 8598830537031500033, 10803717843971298140,
  17386254373003795027, 3490013643061567317, 14966160920336416174, 2716159408585464742,
  13704057180721116715, 6139827121406310950, 12045645008689575811, 5879666907986225363,
  18332108852121545326, 8302596541641486393, 3337300269606353125, 4641043901128821440,
  17552658021160699704, 15245517114959849830, 898774234328201642, 13458365488972458856,
  17617352963801145870, 12653043169047643133, 3946055118622982785, 78667567517654999],
   [7496345100749090134, 11141138397664383499, 9990861652354760086, 6136051413974204120,
  14382251659553821084, 12222838175704680581, 9437743647758681312, 5321952072316248116,
  9510472571572253025, 13968738580144591953, 9048732621241245672, 7070992119077796289,
  7585987196905721881, 12797609451470009512, 13831169997283951441, 14062956797276305407,
  7195172102806297836, 13763135782447679404, 8729177333120200902, 8228513033455726756,
  5827889096510108059, 1541817158620711182, 18002525473269359251, 7210349805272776282,
  6760744891923215431, 1684012349959865632, 5422658641223860702, 5964630753289401637,
  16048931659747747714, 12995369105282084360, 2210225853011473806, 13310794355402477849,
  4356361331354780175, 10920940233470324174, 4480682637160025854, 11920920861864075275,
  17830720560385394644, 17667812763781863653, 8584251371203620679, 10083927648945854194,
  15175717840117055506, 3402388332801799152, 17983756367024412696, 13633521765968038314,
  18197623828188242686, 7159151014196207335, 6329323109608928752, 4596348075478973761,
  1929043772203993371, 2942782730029388844, 17616535832761962408, 14638746212880920282,
  235408037287298392, 15488773953079788133, 14511691540381881087, 4908241668947178463,
  8002325218109467205, 384694259305835297, 4413022859932656147, 16084510603130945976,
  7817184652260023923, 11521163704900182019, 10633473972031941012, 7028123206539359005],
   [12370129909167185711, 18282545875249343957, 11571910781648655955, 12044362528788437371,
  15748959137105604538, 12433669315838447795, 3539341563356477798, 8229636981602574987,
  18267920850505015981, 18135187956959905864, 10122403804874825725, 8577640427585662579,
  16947872026033056961, 4498886674923994328, 5110446196942225801, 2443501881669395127,
  6915148508579620831, 9154422921438056207, 3578030806440286511, 15315801991440539300,
  7070866824836391168, 14817924832942381111, 3001446271118775643, 13000642695841600636,
  14370567463871457833, 11030064684553339453, 14239970918075645415, 9415971121016597759,
  6665243610733579451, 12729882327349519727, 127495542892799647, 6044073010763988256,
  13007064564721953048, 13888665226332397302, 13536486134713258398, 16493663995181111698,
  2130152061385863810, 5369940202574713097, 4976109024626592507, 17662718886951473514,
  10194604604769366768, 9434649875492567077, 9275344374679790988, 13950395516943844512,
  4634019286100624619, 17524913661501655732, 12758868016771465513, 3127147764315865797,
  3960938717909563730, 14869830638616427590, 305185646789997459, 4139658351799906696,
  272667046354598132, 15621274402096728762, 16483498129229512495, 12953368655171389128,
  10678035399177741929, 18049652274331575310, 7975081034372805163, 10522098076497821829,
  12606359703294662790, 13924857104548874958, 6566773282407180921, 3452471826952569846]]

/-- `Keys::ep`: the per-file en-passant hash keys. -/
def ep : List Nat := [1496894497992680375, 2084082391172341243,
  11729626718998573151, 14293717299305360094,
  16212514239411421105, 6429885631572424967,
  3451523918224453279, 13854692987490184313]

/-- `Keys::whiteH` etc.: the four component castling-right keys. -/
def whiteH : Nat := 5559792169691450128

def whiteA : Nat := 16132823951299969965

def blackH : Nat := 1691867131901845518

def blackA : Nat := 13870535350439832211

/-- `Keys::SideToMove`. -/
def SideToMove : Nat := 6828479126010829318

/-- `Keys::PieceOnSquare(piece, square)`. -/
def PieceOnSquare (piece square : Nat) : Nat := (psqt.getD piece []).getD square 0

/-- `Keys::EnPassantTarget(target)`: the key of the target's file. -/
def EnPassantTarget (target : Nat) : Nat := ep.getD (Square.file target) 0

/-- `Keys::castling[rights]`: the generator lambda of `zobrist.hpp` XORs the
component key of each right present in the set. -/
def CastlingRights (rights : Nat) : Nat :=
  (if rights &&& 1 != 0 then whiteH else 0) ^^^
  (if rights &&& 2 != 0 then whiteA else 0) ^^^
  (if rights &&& 4 != 0 then blackH else 0) ^^^
  (if rights &&& 8 != 0 then blackA else 0)

end Keys

/-! ## Castling (`castling.hpp`) -/

namespace Castling

/-- `Castling::Side::H` and `::A`. -/
def Side.H : Nat := 0

def Side.A : Nat := 1

/-- `Castling::Dimension(color, side)`: `color * Side::N + side`. -/
def Dimension (color side : Nat) : Nat := color * 2 + side

/-- The four single-dimension `Rights` values (`1 << dimension`). -/
def WhiteH : Nat := 1

def WhiteA : Nat := 2

def BlackH : Nat := 4

def BlackA : Nat := 8

/-- `Castling::EndSquares(dimension)`: the (king, rook) end squares of the
given castling dimension (G1/F1, C1/D1, G8/F8, C8/D8; the `default` branch
returns default-constructed squares, i.e. `Square::None`). -/
def EndSquares (dimension : Nat) : Nat × Nat :=
  if dimension = 0 then (6, 5)
  else if dimension = 1 then (2, 3)
  else if dimension = 2 then (62, 61)
  else if dimension = 3 then (58, 59)
  else (64, 64)

/-- `Rights::Has(Dimension)`: membership of a dimension in the rights set. -/
def Rights.Has (rights dim : Nat) : Bool := rights &&& (1 <<< dim) != 0

/-- `Rights::operator -`: set difference `internal & ~rhs` on the `uint8`
representation. -/
def Rights.minus (rights rhs : Nat) : Nat := rights &&& (255 ^^^ rhs)

/-- `Castling::Info`: rook start squares, blocker and attack masks per
dimension, and the per-square rights-removal masks. -/
structure Info where
  chess960 : Bool
  rooks : List Nat
  blockerMask : List Nat
  attacksMask : List Nat
  masks : List Nat
deriving DecidableEq

/-- The `BLOCKER_MASK` lambda of the `Info` constructor. -/
def blockerMaskOf (king rook kingEnd rookEnd : Nat) : Nat :=
  (BitBoards.Between2 king kingEnd ||| BitBoards.Between2 rook rookEnd) &&&
    (M64 ^^^ (sqBB king ||| sqBB rook))

/-- The `Info` constructor taking the two king squares and the four rook
files. -/
def Info.make (whiteKing whiteRookHFile whiteRookAFile blackKing blackRookHFile blackRookAFile : Nat)
    (isChess960 : Bool) : Info :=
  let whiteRookH := Square.make whiteRookHFile 0
  let whiteRookA := Square.make whiteRookAFile 0
  let blackRookH := Square.make blackRookHFile 7
  let blackRookA := Square.make blackRookAFile 7
  { chess960 := isChess960
    rooks := [whiteRookH, whiteRookA, blackRookH, blackRookA]
    blockerMask :=
      [blockerMaskOf whiteKing whiteRookH 6 5,
       blockerMaskOf whiteKing whiteRookA 2 3,
       blockerMaskOf blackKing blackRookH 62 61,
       blockerMaskOf blackKing blackRookA 58 59]
    attacksMask :=
      [BitBoards.Between2 whiteKing 6, BitBoards.Between2 whiteKing 2,
       BitBoards.Between2 blackKing 62, BitBoards.Between2 blackKing 58]
    masks :=
      (((((((List.replicate 64 0).set whiteRookH WhiteH).set whiteRookA WhiteA).set
        blackRookH BlackH).set blackRookA BlackA).set whiteKing 3).set blackKing 12) }

/-- `Info::Mask(square)`. -/
def Info.Mask (info : Info) (sq : Nat) : Nat := info.masks.getD sq 0

/-- `Info::Rook(dimension)`. -/
def Info.Rook (info : Info) (dim : Nat) : Nat := info.rooks.getD dim 64

/-- `Info::BlockerMask(dimension)`. -/
def Info.BlockerMask (info : Info) (dim : Nat) : Nat := info.blockerMask.getD dim 0

/-- `Info::AttackMask(dimension)`. -/
def Info.AttackMask (info : Info) (dim : Nat) : Nat := info.attacksMask.getD dim 0

/-- One step of the parsing loop of `Castling::Info::Parse`: state is
`(whiteH, whiteA, blackH, blackA, rights)`. -/
def parseStep (chess960 : Bool) (whiteKing blackKing : Nat)
    (st : Nat × Nat × Nat × Nat × Nat) (c : Char) : Nat × Nat × Nat × Nat × Nat :=
  let (wh, wa, bh, ba, rights) := st
  if chess960 then
    if 'a' ≤ c ∧ c ≤ 'h' then
      let file := c.toNat - 97
      if file > Square.file blackKing then (wh, wa, file, ba, rights ||| BlackH)
      else (wh, wa, bh, file, rights ||| BlackA)
    else
      let file := c.toNat - 65
      if file > Square.file whiteKing then (file, wa, bh, ba, rights ||| WhiteH)
      else (wh, file, bh, ba, rights ||| WhiteA)
  else
    if c = 'K' then (wh, wa, bh, ba, rights ||| WhiteH)
    else if c = 'Q' then (wh, wa, bh, ba, rights ||| WhiteA)
    else if c = 'k' then (wh, wa, bh, ba, rights ||| BlackH)
    else if c = 'q' then (wh, wa, bh, ba, rights ||| BlackA)
    else (wh, wa, bh, ba, rights)

/-- `Castling::Info::Parse(str, WhiteKing, BlackKing)`. -/
def Parse (str : List Char) (whiteKing blackKing : Nat) : Info × Nat :=
  if str = ['-'] then
    (Info.make 4 7 0 60 7 0 false, 0)
  else
    let id := str.headD ' '
    let chess960 := id != 'K' && id != 'Q' && id != 'k' && id != 'q'
    let st := str.foldl (parseStep chess960 whiteKing blackKing) (7, 0, 7, 0, 0)
    (Info.make whiteKing st.1 st.2.1 blackKing st.2.2.1 st.2.2.2.1 chess960, st.2.2.2.2)

end Castling

/-! ## Move (`move.hpp`): 16-bit packed (source, target, flag). -/

/-- A 16-bit packed move. -/
structure Move where
  internal : Nat
deriving DecidableEq

/-- `MoveFlag` internal values. -/
def MoveFlag.Normal : Nat := 0

def MoveFlag.NPromotion : Nat := 1

def MoveFlag.BPromotion : Nat := 2

def MoveFlag.RPromotion : Nat := 3

def MoveFlag.QPromotion : Nat := 4

def MoveFlag.EnPassant : Nat := 5

def MoveFlag.DoublePush : Nat := 6

def MoveFlag.CastleHSide : Nat := 7

def MoveFlag.CastleASide : Nat := 8

/-- `Move::MaxInGame`. -/
def Move.MaxInGame : Nat := 512

/-- `Move::MaxInPosition`. -/
def Move.MaxInPosition : Nat := 220

/-- `Move(source, target, flag)`: flag in bits 12-15, source in bits 0-5,
target in bits 6-11 (each operand first truncated to `uint8`, the packing
done in `uint16`). -/
def Move.make (source target flag : Nat) : Move :=
  ⟨(((flag % 256) <<< 12) ||| (source % 256) ||| ((target % 256) <<< 6)) % 65536⟩

/-- `Move::Source()`. -/
def Move.Source (m : Move) : Nat := m.internal &&& 63

/-- `Move::Target()`. -/
def Move.Target (m : Move) : Nat := (m.internal >>> 6) &&& 63

/-- `Move::Flag()`. -/
def Move.Flag (m : Move) : Nat := (m.internal >>> 12) &&& 15

/-! ## Position (`position.hpp`) -/

/-- `Position`: mailbox, piece/color bitboards, hash, checkers, castling
rights, side to move, en-passant target, draw clock and check count. -/
structure Position where
  Mailbox : List Nat
  PieceBBs : List Nat
  ColorBBs : List Nat
  Hash : Nat
  Checkers : Nat
  Rights : Nat
  SideToMove : Nat
  EpTarget : Nat
  DrawClock : Nat
  CheckNum : Nat
deriving DecidableEq

/-- `Position::operator [] (Piece)`. -/
def Position.pieceBB (p : Position) (piece : Nat) : Nat := p.PieceBBs.getD piece 0

/-- `Position::operator [] (Color)`. -/
def Position.colorBB (p : Position) (color : Nat) : Nat := p.ColorBBs.getD color 0

/-- `Position::operator [] (Square)`: the mailbox entry. -/
def Position.atSq (p : Position) (sq : Nat) : Nat := p.Mailbox.getD sq 12

/-- `Position::Insert(square, piece)`: sets the mailbox entry, flips the
piece and color bitboards, and XORs the piece key into the hash. -/
def Position.Insert (p : Position) (square piece : Nat) : Position :=
  { p with
    Mailbox := p.Mailbox.set square piece
    PieceBBs := p.PieceBBs.set (ColoredPiece.piece piece) (BitBoard.Flip (p.pieceBB (ColoredPiece.piece piece)) square)
    ColorBBs := p.ColorBBs.set (ColoredPiece.color piece) (BitBoard.Flip (p.colorBB (ColoredPiece.color piece)) square)
    Hash := p.Hash ^^^ Keys.PieceOnSquare piece square }

/-- `Position::Remove(square)`: the reverse of `Insert` for the piece found
in the mailbox. -/
def Position.Remove (p : Position) (square : Nat) : Position :=
  let piece := p.atSq square
  { p with
    Mailbox := p.Mailbox.set square 12
    PieceBBs := p.PieceBBs.set (ColoredPiece.piece piece) (BitBoard.Flip (p.pieceBB (ColoredPiece.piece piece)) square)
    ColorBBs := p.ColorBBs.set (ColoredPiece.color piece) (BitBoard.Flip (p.colorBB (ColoredPiece.color piece)) square)
    Hash := p.Hash ^^^ Keys.PieceOnSquare piece square }

/-- `bitIndices b`: the square indices of the set bits of `b` in LSB-to-MSB
order; this is the iteration order of `BitBoard::Iterator` (repeated
LSB-pop). -/
def bitIndicesAux : Nat → Nat → List Nat
  | 0, _ => []
  | (f+1), b => if b = 0 then [] else BitBoard.LSB b :: bitIndicesAux f (b &&& (b - 1))

def bitIndices (b : Nat) : List Nat := bitIndicesAux 64 b

/-- `Position::Attacked<BY>(square, blockers)`: whether color `c` attacks
`square` given the blocker occupancy. -/
def Position.Attacked (c : Nat) (p : Position) (square blockers : Nat) : Bool :=
  let attackers := p.colorBB c
  !BitBoard.IsDisjoint (p.pieceBB 0 &&& attackers) (MoveTable.Pawn (oppColor c) square) ||
  !BitBoard.IsDisjoint (p.pieceBB 1 &&& attackers) (MoveTable.Knight square) ||
  !BitBoard.IsDisjoint ((p.pieceBB 2 ||| p.pieceBB 4) &&& attackers) (MoveTable.Bishop square blockers) ||
  !BitBoard.IsDisjoint ((p.pieceBB 3 ||| p.pieceBB 4) &&& attackers) (MoveTable.Rook square blockers) ||
  !BitBoard.IsDisjoint (p.pieceBB 5 &&& attackers) (MoveTable.King square)

/-- `Position::Attacked<BY>(targets, blockers)`: any of the target squares
attacked. -/
def Position.AttackedAny (c : Nat) (p : Position) (targets blockers : Nat) : Bool :=
  (bitIndices targets).any (fun t => Position.Attacked c p t blockers)

/-- `Position::GenerateCheckers()`: super-piece generation of the checkers
bitboard and check count. -/
def Position.GenerateCheckers (p : Position) : Position :=
  let friends := p.colorBB p.SideToMove
  let enemies := p.colorBB (oppColor p.SideToMove)
  let occupied := friends ||| enemies
  let king := BitBoard.LSB (p.pieceBB 5 &&& friends)
  let checkingP := p.pieceBB 0 &&& MoveTable.Pawn p.SideToMove king
  let checkingN := p.pieceBB 1 &&& MoveTable.Knight king
  let checkingD := (p.pieceBB 2 ||| p.pieceBB 4) &&& MoveTable.Bishop king occupied
  let checkingL := (p.pieceBB 3 ||| p.pieceBB 4) &&& MoveTable.Rook king occupied
  let checkers := (checkingP ||| checkingN ||| checkingD ||| checkingL) &&& enemies
  { p with Checkers := checkers, CheckNum := BitBoard.PopCount checkers }

/-- `Position::ZobristHash(position)`: the standalone full recomputation of
the Zobrist hash. -/
def Position.ZobristHash (p : Position) : Nat :=
  let h0 := 0
  let h1 := if p.SideToMove ≠ 0 then h0 ^^^ Keys.SideToMove else h0
  let h2 := if p.EpTarget ≠ 64 then h1 ^^^ Keys.EnPassantTarget p.EpTarget else h1
  let h3 := h2 ^^^ Keys.CastlingRights p.Rights
  (List.range 64).foldl
    (fun h sq => if p.Mailbox.getD sq 12 ≠ 12 then h ^^^ Keys.PieceOnSquare (p.Mailbox.getD sq 12) sq else h) h3


/-! ## FEN parsing (`fen.hpp`) -/

/-- Split a character list on a separator (`strutil::split`). -/
def splitAux (sep : Char) : List Char → List Char → List (List Char)
  | [], acc => [acc.reverse]
  | (c :: cs), acc => if c = sep then acc.reverse :: splitAux sep cs [] else splitAux sep cs (c :: acc)

def splitOnChar (sep : Char) (cs : List Char) : List (List Char) := splitAux sep cs []

/-- Decimal string to number (`std::stoi` on well-formed input). -/
def parseNat (cs : List Char) : Nat := cs.foldl (fun n c => n * 10 + (c.toNat - 48)) 0

/-- `ColoredPiece(std::string)`: piece letter to `ColoredPiece` value. -/
def charPiece (c : Char) : Nat :=
  if c = 'P' then 0 else if c = 'N' then 1 else if c = 'B' then 2
  else if c = 'R' then 3 else if c = 'Q' then 4 else if c = 'K' then 5
  else if c = 'p' then 6 else if c = 'n' then 7 else if c = 'b' then 8
  else if c = 'r' then 9 else if c = 'q' then 10 else if c = 'k' then 11
  else 12

/-- `Square(const std::string&)`: `"-"` is `Square::None`, otherwise a file
letter and a rank digit. -/
def parseSquare (cs : List Char) : Nat :=
  match cs with
  | ['-'] => 64
  | [f, r] => (r.toNat - 49) * 8 + (f.toNat - 97)
  | _ => 64

/-- One character of the FEN mailbox parsing loop.  State:
`(mailbox, file, whiteKing, blackKing)` for the current rank. -/
def parseRankStep (rank : Nat) (st : List Nat × Nat × Nat × Nat) (c : Char) :
    List Nat × Nat × Nat × Nat :=
  let (mb, file, wk, bk) := st
  let isDigit := '1' ≤ c ∧ c ≤ '8'
  let sq := (7 - rank) * 8 + file
  let mb' := if isDigit then mb else mb.set sq (charPiece c)
  let wk' := if c = 'K' then sq else wk
  let bk' := if c = 'k' then sq else bk
  (mb', file + (if isDigit then c.toNat - 49 else 0) + 1, wk', bk')

/-- The FEN mailbox parsing loop over the eight rank strings; also records
the white and black king squares.  Returns `(mailbox, whiteKing, blackKing)`. -/
def parseBoard (ranks : List (List Char)) : List Nat × Nat × Nat :=
  (List.range 8).foldl
    (fun st rank =>
      let r := ranks.getD rank []
      let final := r.foldl (parseRankStep rank) (st.1, 0, st.2.1, st.2.2)
      (final.1, final.2.2.1, final.2.2.2))
    (List.replicate 64 12, 64, 64)

/-- The parsed `FEN` record (`fen.hpp`). -/
structure FEN where
  Mailbox : List Nat
  SideToMove : Nat
  EPTarget : Nat
  PlysCount : Nat
  DrawClock : Nat
  CastlingInfo : Castling.Info
  CastlingRights : Nat

/-- `FEN(const std::string&)`: splits the six fields and parses each.  The
initial ply count is `full_moves * 2 - (white-to-move ? 2 : 1)` in `uint16`
arithmetic. -/
def FEN.parse (s : String) : FEN :=
  let fields := splitOnChar ' ' s.toList
  let board := parseBoard (splitOnChar '/' (fields.getD 0 []))
  let stm := if fields.getD 1 [] = ['w'] then 0 else 1
  let pr := Castling.Parse (fields.getD 2 []) board.2.1 board.2.2
  let ep := parseSquare (fields.getD 3 [])
  let dc := parseNat (fields.getD 4 []) % 256
  let mc := parseNat (fields.getD 5 [])
  ⟨board.1, stm, ep, (mc * 2 + 65536 - (if stm = 0 then 2 else 1)) % 65536, dc, pr.1, pr.2⟩

/-- The scalar-field initialisation of `Position(const FEN&)`: every board
array empty, and the hash seeded with the side, EP and castling keys (each
XORed in only when applicable). -/
def ofFENBase (fen : FEN) : Position :=
  let h1 := if fen.SideToMove ≠ 0 then 0 ^^^ Keys.SideToMove else 0
  let h2 := if fen.EPTarget ≠ 64 then h1 ^^^ Keys.EnPassantTarget fen.EPTarget else h1
  let h3 := if fen.CastlingRights ≠ 0 then h2 ^^^ Keys.CastlingRights fen.CastlingRights else h2
  ⟨List.replicate 64 12, List.replicate 6 0, List.replicate 2 0, h3, 0,
   fen.CastlingRights, fen.SideToMove, fen.EPTarget, fen.DrawClock, 0⟩

/-- One step of the piece-insertion loop of `Position(const FEN&)`. -/
def fenInsertStep (fen : FEN) : Position → Nat → Position :=
  fun p sq => if fen.Mailbox.getD sq 12 ≠ 12 then p.Insert sq (fen.Mailbox.getD sq 12) else p

/-- `Position(const FEN&)`: copies the scalar fields (XORing the side, EP and
castling keys into the hash when applicable), inserts every piece of the FEN
mailbox, and generates the checkers. -/
def Position.ofFEN (fen : FEN) : Position :=
  ((List.range 64).foldl (fenInsertStep fen) (ofFENBase fen)).GenerateCheckers

/-- Parse a FEN string directly to a `Position`. -/
def Position.ofFENString (s : String) : Position := Position.ofFEN (FEN.parse s)

/-! ## Legal move generator (`movegen.hpp`)

`Moves::Generator<STM, QUIET, NOISY>` is modelled as a record of the
per-call state; the template parameters become ordinary arguments.  The
generated `MoveList` is modelled as a `List Move` in emission order
(`MoveList::Emplace` appends). -/

/-- The per-call state of `Moves::Generator`. -/
structure Gen where
  stm : Nat
  quiet : Bool
  noisy : Bool
  position : Position
  castlingInfo : Castling.Info
  friends : Nat
  enemies : Nat
  occupied : Nat
  blockers : Nat
  territory : Nat
  checkmask : Nat
  king : Nat
  pinmaskL : Nat
  pinmaskD : Nat

namespace Moves

/-- `Generator::generatePinMask(pinning)`: for each candidate pinner, add the
king-to-pinner ray (pinner inclusive) when it holds exactly one friendly
piece. -/
def generatePinMask (king friends pinning : Nat) : Nat :=
  (bitIndices pinning).foldl
    (fun pinmask piece =>
      let possiblePin := BitBoards.Between2 king piece
      if BitBoard.Singular (friends &&& possiblePin) then pinmask ||| possiblePin else pinmask) 0

/-- `Generator::generateCheckMask()`. -/
def generateCheckMask (p : Position) (king : Nat) : Nat :=
  match p.CheckNum with
  | 0 => BitBoards.Full
  | 2 => BitBoards.Empty
  | _ =>
    let checkerSq := BitBoard.LSB p.Checkers
    let checkerPc := ColoredPiece.piece (p.atSq checkerSq)
    if checkerPc = 0 ∨ checkerPc = 1 then p.Checkers
    else BitBoards.Between2 king checkerSq

/-- The `Generator` constructor: occupancy, territory, king square, pin
masks and check mask. -/
def mkGen (stm : Nat) (quiet noisy : Bool) (p : Position) (info : Castling.Info) : Gen :=
  let friends := p.colorBB stm
  let enemies := p.colorBB (oppColor stm)
  let occupied := friends ||| enemies
  let territory := (if quiet then M64 ^^^ occupied else 0) ||| (if noisy then enemies else 0)
  let kingBB := p.pieceBB 5 &&& friends
  let blockers := occupied ^^^ kingBB
  let king := BitBoard.LSB kingBB
  let b := enemies &&& p.pieceBB 2
  let r := enemies &&& p.pieceBB 3
  let q := enemies &&& p.pieceBB 4
  let pinmaskL := generatePinMask king friends ((r ||| q) &&& MoveTable.Rook king enemies)
  let pinmaskD := generatePinMask king friends ((b ||| q) &&& MoveTable.Bishop king enemies)
  let checkmask := generateCheckMask p king
  ⟨stm, quiet, noisy, p, info, friends, enemies, occupied, blockers, territory, checkmask, king,
   pinmaskL, pinmaskD⟩

/-- `Generator::serialize(source, targets)`. -/
def serialize (g : Gen) (source targets : Nat) : List Move :=
  (bitIndices (targets &&& g.checkmask &&& g.territory)).map (fun t => Move.make source t 0)

/-- `Generator::serialize<OFFSET, FLAG>(targets)`: the source square is the
target shifted by `-OFFSET`. -/
def serializeOff (g : Gen) (offset : Int) (flag : Nat) (targets : Nat) : List Move :=
  (bitIndices (targets &&& g.checkmask &&& g.territory)).map
    (fun t => Move.make (Square.shift t (-offset)) t flag)

/-- `Generator::serializePromotions<OFFSET, CAPTURE>(targets)`: queen
promotions when NOISY; under-promotions when quiet-and-noncapture or
noisy-and-capture. -/
def serializePromotions (g : Gen) (offset : Int) (capture : Bool) (targets : Nat) : List Move :=
  (bitIndices (targets &&& g.checkmask &&& (M64 ^^^ g.friends))).foldr
    (fun t acc =>
      (if g.noisy then [Move.make (Square.shift t (-offset)) t 4] else []) ++
      (if (g.quiet ∧ ¬capture) ∨ (g.noisy ∧ capture) then
        [Move.make (Square.shift t (-offset)) t 1,
         Move.make (Square.shift t (-offset)) t 2,
         Move.make (Square.shift t (-offset)) t 3] else []) ++ acc) []

/-- The en-passant part of `Generator::pawnMoves` (NOISY only; `attackers`
are the laterally-unpinned friendly pawns). -/
def epMoves (g : Gen) (attackers : Nat) (UP : Int) : List Move :=
  if g.position.EpTarget ≠ 64 then
    let target := g.position.EpTarget
    let targetBB := sqBB target
    let passanters := MoveTable.Pawn (oppColor g.stm) target &&& attackers
    match BitBoard.PopCount passanters with
    | 1 =>
      if BitBoard.IsDisjoint (targetBB ||| BitBoard.shift targetBB (-UP)) g.checkmask then []
      else
        let captured := Square.shift target (-UP)
        let horizPinned :=
          if Square.rank g.king = Square.rank captured then
            let pinners := (g.position.pieceBB 3 ||| g.position.pieceBB 4) &&& g.enemies
            let vanishers := passanters ||| sqBB captured
            !BitBoard.IsDisjoint (MoveTable.Rook g.king (g.occupied ^^^ vanishers)) pinners
          else false
        if horizPinned then []
        else if BitBoard.IsDisjoint g.pinmaskD passanters || !BitBoard.IsDisjoint g.pinmaskD targetBB then
          [Move.make (BitBoard.LSB passanters) target 5]
        else []
    | 2 =>
      (bitIndices passanters).foldr
        (fun passanter acc =>
          if !BitBoard.mem g.pinmaskD passanter || !BitBoard.IsDisjoint g.pinmaskD targetBB then
            Move.make passanter target 5 :: acc
          else acc) []
    | _ => []
  else []

/-- `Generator::pawnMoves()`. -/
def pawnMoves (g : Gen) : List Move :=
  let UP : Int := if g.stm = 0 then 8 else -8
  let UE : Int := UP + 1
  let UW : Int := UP - 1
  let DPRank := BitBoards.Rank (if g.stm = 0 then 2 else 5)
  let PRRank := BitBoards.Rank (if g.stm = 0 then 7 else 0)
  let pawns := g.position.pieceBB 0 &&& g.friends
  let noisyPart :=
    if g.noisy then
      let attackers := pawns &&& (M64 ^^^ g.pinmaskL)
      let pinnedAttackers := attackers &&& g.pinmaskD
      let unpinnedAttackers := attackers ^^^ pinnedAttackers
      let attacksE := (BitBoard.shift pinnedAttackers UE &&& g.pinmaskD) ||| BitBoard.shift unpinnedAttackers UE
      let attacksW := (BitBoard.shift pinnedAttackers UW &&& g.pinmaskD) ||| BitBoard.shift unpinnedAttackers UW
      serializeOff g UE 0 ((attacksE &&& (M64 ^^^ PRRank)) &&& g.enemies) ++
      serializeOff g UW 0 ((attacksW &&& (M64 ^^^ PRRank)) &&& g.enemies) ++
      serializePromotions g UE true (attacksE &&& PRRank &&& g.enemies) ++
      serializePromotions g UW true (attacksW &&& PRRank &&& g.enemies) ++
      epMoves g attackers UP
    else []
  let quietPart :=
    if g.quiet then
      let pushers := pawns &&& (M64 ^^^ g.pinmaskD)
      let pinnedPushers := pushers &&& g.pinmaskL
      let unpinnedPushers := pushers ^^^ pinnedPushers
      let pinnedSinglePush := BitBoard.shift pinnedPushers UP &&& (M64 ^^^ g.occupied)
      let unpinnedSinglePush := BitBoard.shift unpinnedPushers UP &&& (M64 ^^^ g.occupied)
      let singlePushes := (pinnedSinglePush &&& g.pinmaskL) ||| unpinnedSinglePush
      let doublePushes := BitBoard.shift (singlePushes &&& DPRank) UP &&& (M64 ^^^ g.occupied)
      serializeOff g UP 0 (singlePushes &&& (M64 ^^^ PRRank)) ++
      serializeOff g (UP + UP) 6 doublePushes ++
      serializePromotions g UP false (singlePushes &&& PRRank)
    else []
  noisyPart ++ quietPart

/-- `Generator::knightMoves()`. -/
def knightMoves (g : Gen) : List Move :=
  let knights := (g.position.pieceBB 1 &&& g.friends) &&& (M64 ^^^ (g.pinmaskL ||| g.pinmaskD))
  (bitIndices knights).foldr (fun kn acc => serialize g kn (MoveTable.Knight kn) ++ acc) []

/-- `Generator::bishopMoves()` (bishops and queens). -/
def bishopMoves (g : Gen) : List Move :=
  let bishops := ((g.position.pieceBB 2 ||| g.position.pieceBB 4) &&& g.friends) &&& (M64 ^^^ g.pinmaskL)
  let pinned := bishops &&& g.pinmaskD
  let unpinned := bishops ^^^ pinned
  (bitIndices pinned).foldr
    (fun b acc => serialize g b (MoveTable.Bishop b g.occupied &&& g.pinmaskD) ++ acc) [] ++
  (bitIndices unpinned).foldr (fun b acc => serialize g b (MoveTable.Bishop b g.occupied) ++ acc) []

/-- `Generator::rookMoves()` (rooks and queens). -/
def rookMoves (g : Gen) : List Move :=
  let rooks := ((g.position.pieceBB 3 ||| g.position.pieceBB 4) &&& g.friends) &&& (M64 ^^^ g.pinmaskD)
  let pinned := rooks &&& g.pinmaskL
  let unpinned := rooks ^^^ pinned
  (bitIndices pinned).foldr
    (fun r acc => serialize g r (MoveTable.Rook r g.occupied &&& g.pinmaskL) ++ acc) [] ++
  (bitIndices unpinned).foldr (fun r acc => serialize g r (MoveTable.Rook r g.occupied) ++ acc) []

/-- `Generator::kingMoves()`: targets that are not attacked with the
king-removed blocker set. -/
def kingMoves (g : Gen) : List Move :=
  (bitIndices (MoveTable.King g.king &&& g.territory)).foldr
    (fun t acc =>
      if !Position.Attacked (oppColor g.stm) g.position t g.blockers then
        Move.make g.king t 0 :: acc
      else acc) []

/-- `Generator::castlingMove<SIDE>()`. -/
def castlingMove (g : Gen) (side : Nat) : List Move :=
  let dimension := Castling.Dimension g.stm side
  if !BitBoard.mem g.pinmaskL (g.castlingInfo.Rook dimension) &&
     Castling.Rights.Has g.position.Rights dimension &&
     BitBoard.IsDisjoint g.occupied (g.castlingInfo.BlockerMask dimension) &&
     !Position.AttackedAny (oppColor g.stm) g.position (g.castlingInfo.AttackMask dimension) g.blockers
  then [Move.make g.king (g.castlingInfo.Rook dimension) (if side = 0 then 7 else 8)]
  else []

/-- `Generator::castlingMoves()` (QUIET only; H side then A side). -/
def castlingMoves (g : Gen) : List Move :=
  if !g.quiet then [] else castlingMove g 0 ++ castlingMove g 1

/-- `Generator::GenerateMoves()`: the fall-through dispatch on the number of
checkers. -/
def generateDispatch (g : Gen) : List Move :=
  match g.position.CheckNum with
  | 0 =>
    castlingMoves g ++ rookMoves g ++ bishopMoves g ++ knightMoves g ++ pawnMoves g ++ kingMoves g
  | 1 => rookMoves g ++ bishopMoves g ++ knightMoves g ++ pawnMoves g ++ kingMoves g
  | _ => kingMoves g

/-- `Moves::Generate<QUIET, NOISY>(p, castlingInfo)`: dispatch on the side
to move. -/
def Generate (quiet noisy : Bool) (p : Position) (info : Castling.Info) : List Move :=
  if p.SideToMove = 0 then generateDispatch (mkGen 0 quiet noisy p info)
  else generateDispatch (mkGen 1 quiet noisy p info)

end Moves

/-! ## Board (`board.hpp`) -/

/-- `Board`: the castling info, the position history stack (as an
index-to-`Position` map of the `std::array<Position, 512>`), the `uint16`
top-of-stack index and the initial ply count. -/
structure Board where
  castlingInfo : Castling.Info
  top : Nat
  history : Nat → Position
  initialPlys : Nat

/-- `Board(fen)`: stores the parsed position at the bottom of the stack.
Unwritten stack slots are modelled as holding the same initial position
(they are never read before being written). -/
def Board.ofFEN (fen : FEN) : Board :=
  ⟨fen.CastlingInfo, 0, fun _ => Position.ofFEN fen, fen.PlysCount⟩

def Board.ofFENString (s : String) : Board := Board.ofFEN (FEN.parse s)

/-- `Board::Position()`: the current top of the history stack. -/
def Board.Position (b : Board) : Position := b.history b.top

/-- `Board::doCastling(position, side)`: inserts the castling king and rook
at their end squares (both have already been removed). -/
def doCastling (position : Position) (side : Nat) : Position :=
  let dim := Castling.Dimension position.SideToMove side
  let ends := Castling.EndSquares dim
  (position.Insert ends.1 (coloredPiece 5 position.SideToMove)).Insert ends.2
    (coloredPiece 3 position.SideToMove)

/-- The flag-independent first half of the mutation `Board::MakeMove`
performs on the copied top `Position`: draw-clock tick, en-passant reset,
castling-rights update, removal of the moving piece and of the captured
piece (if any), and the draw-clock resets. -/
def mmClock (p0 : Position) : Position := { p0 with DrawClock := (p0.DrawClock + 1) % 256 }

/-- The en-passant reset step of `MakeMove`: clear the EP target, removing
its hash key, if one was set. -/
def mmEpClear (p1 : Position) : Position :=
  if p1.EpTarget ≠ 64 then
    { p1 with Hash := p1.Hash ^^^ Keys.EnPassantTarget p1.EpTarget, EpTarget := 64 }
  else p1

/-- The castling-rights update step of `MakeMove`: strip the rights masked
by the source and target squares, XORing the key of the stripped subset out
of the hash. -/
def mmRights (info : Castling.Info) (source target : Nat) (p2 : Position) : Position :=
  let change := info.Mask source ||| info.Mask target
  { p2 with
    Hash := p2.Hash ^^^ Keys.CastlingRights (change &&& p2.Rights)
    Rights := Castling.Rights.minus p2.Rights change }

def makeMovePrefix (info : Castling.Info) (p0 : Position) (m : Move) : Position :=
  let source := m.Source
  let target := m.Target
  let sourcePiece := p0.atSq source
  let targetPiece := p0.atSq target
  let isCapture := targetPiece ≠ 12
  let p4 := (mmRights info source target (mmEpClear (mmClock p0))).Remove source
  if isCapture then { p4.Remove target with DrawClock := 0 }
  else if ColoredPiece.piece sourcePiece = 0 then { p4 with DrawClock := 0 }
  else p4

/-- The flag-independent last steps of `Board::MakeMove`: flip the side to
move (XORing in the side-to-move key) and regenerate the checkers. -/
def makeMoveFinish (p6 : Position) : Position :=
  ({ p6 with SideToMove := oppColor p6.SideToMove, Hash := p6.Hash ^^^ Keys.SideToMove }).GenerateCheckers

/-- The switch on the move flag in `Board::MakeMove`, applied after the
flag-independent prefix. -/
def makeMoveMid (info : Castling.Info) (p0 : Position) (m : Move) : Position :=
  let source := m.Source
  let target := m.Target
  let flag := m.Flag
  let sourcePiece := p0.atSq source
  let UP := Directions.Up p0.SideToMove
  let p5 := makeMovePrefix info p0 m
  if flag = 0 then p5.Insert target sourcePiece
  else if flag = 6 then
    let p := p5.Insert target sourcePiece
    let newEPTarget := Square.shift source UP
    let attackers := p.pieceBB 0 &&& p.colorBB (oppColor p.SideToMove)
    if !BitBoard.IsDisjoint (MoveTable.Pawn p.SideToMove newEPTarget) attackers then
      { p with EpTarget := newEPTarget, Hash := p.Hash ^^^ Keys.EnPassantTarget newEPTarget }
    else p
  else if flag = 7 then doCastling p5 0
  else if flag = 8 then doCastling p5 1
  else if flag = 5 then (p5.Insert target sourcePiece).Remove (Square.shift target (-UP))
  else if flag = 4 then p5.Insert target (coloredPiece 4 p5.SideToMove)
  else if flag = 1 then p5.Insert target (coloredPiece 1 p5.SideToMove)
  else if flag = 2 then p5.Insert target (coloredPiece 2 p5.SideToMove)
  else if flag = 3 then p5.Insert target (coloredPiece 3 p5.SideToMove)
  else p5

/-- The mutation `Board::MakeMove` performs on the copied top `Position`
(everything between the stack push and the end of the function): the
flag-independent prefix above, then the switch on the move flag, the
side-to-move flip, and the checker regeneration. -/
def makeMovePos (info : Castling.Info) (p0 : Position) (m : Move) : Position :=
  makeMoveFinish (makeMoveMid info p0 m)

/-- The assertions the debug build of `MakeMove` checks along its path (the
`assert`s inside `Position::Insert` / `Position::Remove`): the source square
holds a piece, the en-passant victim square holds a piece, and the two
castling end squares are empty when the castling king and rook are inserted.
Moves produced by the legal move generator on a reachable position satisfy
all of them. -/
def MakeMoveOk (info : Castling.Info) (p : Position) (m : Move) : Bool :=
  let source := m.Source
  let target := m.Target
  let flag := m.Flag
  let sourcePiece := p.atSq source
  let UP := Directions.Up p.SideToMove
  let p5 := makeMovePrefix info p m
  decide (sourcePiece ≠ 12) &&
  (if flag = 5 then
    decide (((p5.Insert target sourcePiece).atSq (Square.shift target (-UP))) ≠ 12)
  else true) &&
  (if flag = 7 ∨ flag = 8 then
    let side := if flag = 7 then 0 else 1
    let ends := Castling.EndSquares (Castling.Dimension p.SideToMove side)
    decide (p5.atSq ends.1 = 12) &&
      decide ((p5.Insert ends.1 (coloredPiece 5 p.SideToMove)).atSq ends.2 = 12)
  else true)

/-- `Board::MakeMove(move)`: pushes (increments the `uint16` top), copies the
previous top position and mutates the copy in place. -/
def Board.MakeMove (b : Board) (m : Move) : Board :=
  let newTop := (b.top + 1) % 65536
  { b with
    top := newTop
    history := fun i =>
      if i = newTop then makeMovePos b.castlingInfo (b.history b.top) m else b.history i }

/-- `Board::UndoMove()`: pops (decrements the `uint16` top). -/
def Board.UndoMove (b : Board) : Board :=
  { b with top := (b.top + 65535) % 65536 }

/-- `Board::GenerateMoves<QUIET, NOISY>()`. -/
def Board.GenerateMoves (quiet noisy : Bool) (b : Board) : List Move :=
  Moves.Generate quiet noisy b.Position b.castlingInfo

/-- The recursion of `Board::perft<BULK_COUNT, SPLIT_MOVES>` for
non-negative depths (the fuel is the depth).  The C++ makes each move on the
board, recurses, and undoes it; since `UndoMove` restores the pre-make
current position exactly (theorem `c4_make_undo_restores`), recursing on the
pushed board is an equivalent rendering of that bracket.  `SPLIT_MOVES` only
controls printing and the bulk short-circuit; recursive calls pass
`SPLIT_MOVES = false`. -/
def Board.perftAux (bulk split : Bool) (b : Board) : Nat → Nat
  | 0 => 1
  | (d+1) =>
    let moves := Board.GenerateMoves true true b
    if bulk ∧ ¬split ∧ d = 0 then moves.length
    else moves.foldl (fun nodes m => nodes + Board.perftAux bulk false (b.MakeMove m) d) 0

/-- `Board::Perft<BULK_COUNT, SPLIT_MOVES>(depth)`: non-positive depths
count one node. -/
def Board.Perft (bulk split : Bool) (b : Board) (depth : Int) : Nat :=
  if depth ≤ 0 then 1 else Board.perftAux bulk split b depth.toNat


/-! ## Common concrete inputs for the claim checks -/

/-- The standard chess start position FEN. -/
def startFen : String := "rnbqkbnr/pppppppp/8/8/8/8/PPPPPPPP/RNBQKBNR w KQkq - 0 1"

/-- The `Board` loaded from the standard start position. -/
def startBoard : Board := Board.ofFENString startFen

/-!  ## Claim checks -/

/-- C10: `LSB()` on the empty BitBoard returns `Square::None`: the bit-scan
of zero yields 64, which is exactly the encoding of the `None` square. -/
theorem c10_lsb_empty_is_none : BitBoard.LSB BitBoards.Empty = Square.None := by decide

/-- C4: for a board with fewer than `Move::MaxInGame` outstanding frames,
`MakeMove(m)` immediately followed by `UndoMove()` leaves the current
`Position` equal to the pre-make `Position` in every field (the `Position`
type's structural equality covers all fields, including the hash):
`MakeMove` mutates a fresh copy one slot above the current top, and
`UndoMove` merely pops the top index. -/
theorem c4_make_undo_restores (b : Board) (m : Move) (h : b.top + 1 < Move.MaxInGame) :
    ((b.MakeMove m).UndoMove).Position = b.Position := by
  have h16 : b.top + 1 < 65536 := by
    have : Move.MaxInGame = 512 := rfl
    omega
  have hmod : (b.top + 1) % 65536 = b.top + 1 := Nat.mod_eq_of_lt h16
  show ((b.MakeMove m).UndoMove).history ((b.MakeMove m).UndoMove).top = b.history b.top
  have htop : ((b.MakeMove m).UndoMove).top = b.top := by
    show ((b.top + 1) % 65536 + 65535) % 65536 = b.top
    rw [hmod]
    have : b.top + 1 + 65535 = b.top + 65536 := by omega
    rw [this, Nat.add_mod_right, Nat.mod_eq_of_lt (by omega)]
  rw [Board.UndoMove] at htop ⊢
  simp only at htop ⊢
  rw [htop]
  show (if b.top = (b.top + 1) % 65536 then _ else b.history b.top) = b.history b.top
  rw [hmod, if_neg (by omega)]

/-- Witness for C4: the start position with a double pawn push. -/
theorem c4_make_undo_restores_witness :
    startBoard.top + 1 < Move.MaxInGame ∧
      ((startBoard.MakeMove (Move.make 12 28 6)).UndoMove).Position = startBoard.Position :=
  ⟨by decide!, c4_make_undo_restores startBoard (Move.make 12 28 6) (by decide!)⟩

/-- Summing `1` over a list counts its length. -/
theorem foldl_add_one {α : Type} (l : List α) (acc : Nat) :
    l.foldl (fun a _ => a + 1) acc = acc + l.length := by
  induction l generalizing acc with
  | nil => simp
  | cons x xs ih => simp [List.foldl, ih]; omega

/-- Bulk counting agrees with plain counting at every fuel value. -/
theorem perftAux_bulk_eq : ∀ (n : Nat) (b : Board),
    Board.perftAux true false b n = Board.perftAux false false b n := by
  intro n
  induction n with
  | zero => intro b; rfl
  | succ n ih =>
    intro b
    simp only [Board.perftAux]
    by_cases hn : n = 0
    · subst hn
      simp only [true_and, not_false_eq_true, and_true, false_and, if_true, if_false]
      simp only [Board.perftAux]
      rw [foldl_add_one]
      simp
    · simp only [hn, true_and, not_false_eq_true, and_true, and_false, false_and, if_false]
      simp only [ih]

/-- C5: for every board and every depth, `Perft<true, false>` (bulk
counting) returns the same node count as `Perft<false, false>`; the bulk
shortcut at depth 1 returns the move-list length, which equals making each
move and counting one node for it; and both return 1 for every depth
`d ≤ 0`. -/
theorem c5_perft_bulk_eq (b : Board) (d : Int) :
    Board.Perft true false b d = Board.Perft false false b d ∧
      (d ≤ 0 → Board.Perft true false b d = 1 ∧ Board.Perft false false b d = 1) := by
  constructor
  · unfold Board.Perft
    by_cases hd : d ≤ 0
    · rw [if_pos hd, if_pos hd]
    · rw [if_neg hd, if_neg hd, perftAux_bulk_eq]
  · intro hd
    unfold Board.Perft
    rw [if_pos hd, if_pos hd]
    exact ⟨rfl, rfl⟩

/-- Witness for C5: at a negative depth both perfts are 1, and they agree. -/
theorem c5_perft_bulk_eq_witness :
    Board.Perft true false startBoard (-2) = Board.Perft false false startBoard (-2) ∧
      Board.Perft true false startBoard (-2) = 1 ∧ Board.Perft false false startBoard (-2) = 1 :=
  ⟨(c5_perft_bulk_eq startBoard (-2)).1,
   ((c5_perft_bulk_eq startBoard (-2)).2 (by decide)).1,
   ((c5_perft_bulk_eq startBoard (-2)).2 (by decide)).2⟩

/-- The FEN of claim C6. -/
def c6Fen : String := "8/8/8/KPpP3r/8/8/8/7k w - c6 0 1"

/-- C6 counterexample: in the position `8/8/8/KPpP3r/8/8/8/7k w - c6 0 1`
the generator DOES emit the en-passant capture d5xc6 (source d5 = 35,
target c6 = 42, flag `EnPassant`), contradicting the claim.  The capture is
in fact legal there: after d5xc6 removes the pawns on d5 and c5, the white
pawn on b5 still blocks the h5 rook's line to the king on a5; with two
passanters a horizontal discovered check is impossible, which is exactly
the `case 2` reasoning of `Generator::pawnMoves`. -/
theorem c6_counterexample :
    Move.make 35 42 5 ∈
      Moves.Generate true true (Position.ofFENString c6Fen) (FEN.parse c6Fen).CastlingInfo := by
  decide!

/-- The FEN of claim C6 with the white b5 pawn removed, leaving d5 as the
only passanter. -/
def c6FenAmended : String := "8/8/8/K1pP3r/8/8/8/7k w - c6 0 1"

/-- C6 amended: in the position `8/8/8/K1pP3r/8/8/8/7k w - c6 0 1` (the
claim's position without the white pawn on b5, so that d5 is the only
passanter), the move list returned by `GenerateMoves<true,true>` does not
contain the en-passant capture from d5 to c6: removing both the d5 and c5
pawns would expose the white king on a5 to the black rook on h5 along the
fifth rank, which the generator's horizontal-discovered-check test
detects. -/
theorem c6_amended :
    Move.make 35 42 5 ∉
      Moves.Generate true true (Position.ofFENString c6FenAmended)
        (FEN.parse c6FenAmended).CastlingInfo := by
  decide!

/-- A position loadable from a FEN with 234 legal moves (twelve white
queens, four white knights). -/
def c9Fen : String := "3Q4/NQ4Q1/4Q3/2Q4Q/Q4Q2/3Q3k/KQ4QN/4Q1NN w - - 0 1"

/-- C9 counterexample: the position parsed from
`3Q4/NQ4Q1/4Q3/2Q4Q/Q4Q2/3Q3k/KQ4QN/4Q1NN w - - 0 1` is reachable in the
program's sense (any parseable FEN can be loaded into a `Board`), yet
`GenerateMoves<true,true>` returns 234 moves, exceeding
`Move::MaxInPosition = 220`; the unchecked append would therefore write
out of bounds of the fixed-capacity `MoveList` array. -/
theorem c9_counterexample :
    220 < (Moves.Generate true true (Position.ofFENString c9Fen)
      (FEN.parse c9Fen).CastlingInfo).length := by
  decide!

/-- C9 amended: for positions reachable from the standard start position
(checked here for the start position itself and every position one
generated move away), the generator returns at most
`Move::MaxInPosition = 220` moves, so the fixed-capacity `MoveList` is not
overflowed; the 220 bound expresses the maximum number of legal moves in a
position reachable by legal play from the standard start, and can be
violated only by positions loaded from FENs with non-standard material, as
the counterexample shows. -/
theorem c9_amended :
    ((Board.GenerateMoves true true startBoard).length ≤ 220 ∧
      (Board.GenerateMoves true true startBoard).all
        (fun m => (Board.GenerateMoves true true (startBoard.MakeMove m)).length ≤ 220)) := by
  decide!


/-! ## C7: the DoublePush en-passant predicate -/

/-- Projection facts for `Insert`, `Remove`, `GenerateCheckers` and the
record updates of `makeMovePos`, used to track which fields each step
leaves unchanged. -/
theorem Insert_SideToMove (p : Position) (sq pc : Nat) :
    (p.Insert sq pc).SideToMove = p.SideToMove := rfl

theorem Insert_EpTarget (p : Position) (sq pc : Nat) :
    (p.Insert sq pc).EpTarget = p.EpTarget := rfl

theorem Insert_Rights (p : Position) (sq pc : Nat) : (p.Insert sq pc).Rights = p.Rights := rfl

theorem Insert_Hash (p : Position) (sq pc : Nat) :
    (p.Insert sq pc).Hash = p.Hash ^^^ Keys.PieceOnSquare pc sq := rfl

theorem Insert_PieceBBs (p : Position) (sq pc : Nat) :
    (p.Insert sq pc).PieceBBs =
      p.PieceBBs.set (ColoredPiece.piece pc) (BitBoard.Flip (p.pieceBB (ColoredPiece.piece pc)) sq) := rfl

theorem Insert_ColorBBs (p : Position) (sq pc : Nat) :
    (p.Insert sq pc).ColorBBs =
      p.ColorBBs.set (ColoredPiece.color pc) (BitBoard.Flip (p.colorBB (ColoredPiece.color pc)) sq) := rfl

theorem Insert_Mailbox (p : Position) (sq pc : Nat) :
    (p.Insert sq pc).Mailbox = p.Mailbox.set sq pc := rfl

theorem Insert_DrawClock (p : Position) (sq pc : Nat) :
    (p.Insert sq pc).DrawClock = p.DrawClock := rfl

theorem Remove_SideToMove (p : Position) (sq : Nat) : (p.Remove sq).SideToMove = p.SideToMove := rfl

theorem Remove_EpTarget (p : Position) (sq : Nat) : (p.Remove sq).EpTarget = p.EpTarget := rfl

theorem Remove_Rights (p : Position) (sq : Nat) : (p.Remove sq).Rights = p.Rights := rfl

theorem Remove_Hash (p : Position) (sq : Nat) :
    (p.Remove sq).Hash = p.Hash ^^^ Keys.PieceOnSquare (p.atSq sq) sq := rfl

theorem Remove_Mailbox (p : Position) (sq : Nat) : (p.Remove sq).Mailbox = p.Mailbox.set sq 12 := rfl

theorem GenerateCheckers_EpTarget (p : Position) : p.GenerateCheckers.EpTarget = p.EpTarget := rfl

theorem GenerateCheckers_Hash (p : Position) : p.GenerateCheckers.Hash = p.Hash := rfl

theorem GenerateCheckers_SideToMove (p : Position) :
    p.GenerateCheckers.SideToMove = p.SideToMove := rfl

theorem GenerateCheckers_PieceBBs (p : Position) : p.GenerateCheckers.PieceBBs = p.PieceBBs := rfl

theorem GenerateCheckers_ColorBBs (p : Position) : p.GenerateCheckers.ColorBBs = p.ColorBBs := rfl

theorem GenerateCheckers_Mailbox (p : Position) : p.GenerateCheckers.Mailbox = p.Mailbox := rfl

theorem GenerateCheckers_Rights (p : Position) : p.GenerateCheckers.Rights = p.Rights := rfl

/-- The en-passant target is always cleared by the flag-independent first
half of `MakeMove`. -/
theorem makeMovePrefix_EpTarget (info : Castling.Info) (p : Position) (m : Move) :
    (makeMovePrefix info p m).EpTarget = 64 ∧
      ((makeMovePrefix info p m).EpTarget = 64 ∨ (makeMovePrefix info p m).EpTarget = p.EpTarget) := by
  unfold makeMovePrefix mmRights mmEpClear mmClock
  by_cases hc : p.atSq m.Target ≠ 12 <;> by_cases he : p.EpTarget ≠ 64 <;>
    by_cases hp : ColoredPiece.piece (p.atSq m.Source) = 0 <;>
      simp [hc, he, hp, Remove_EpTarget] <;> omega

/-- `makeMovePrefix` does not change the side to move. -/
theorem makeMovePrefix_SideToMove (info : Castling.Info) (p : Position) (m : Move) :
    (makeMovePrefix info p m).SideToMove = p.SideToMove := by
  unfold makeMovePrefix mmRights mmEpClear mmClock
  by_cases hc : p.atSq m.Target ≠ 12 <;> by_cases he : p.EpTarget ≠ 64 <;>
    by_cases hp : ColoredPiece.piece (p.atSq m.Source) = 0 <;>
      simp [hc, he, hp, Remove_SideToMove]

/-- `Move::Source()` is a 6-bit field. -/
theorem Move.Source_lt (m : Move) : m.Source < 64 :=
  Nat.lt_of_le_of_lt Nat.and_le_right (by omega)

/-- `Move::Target()` is a 6-bit field. -/
theorem Move.Target_lt (m : Move) : m.Target < 64 :=
  Nat.lt_of_le_of_lt Nat.and_le_right (by omega)

/-- Packing a normal-flagged move from in-range squares and unpacking it
returns the squares and the flag. -/
theorem Move.make_normal_unpack : ∀ s < 64, ∀ t < 64,
    (Move.make s t 0).Source = s ∧ (Move.make s t 0).Target = t ∧ (Move.make s t 0).Flag = 0 := by
  decide!


theorem makeMoveFinish_EpTarget (x : Position) : (makeMoveFinish x).EpTarget = x.EpTarget := rfl

theorem makeMoveFinish_Hash (x : Position) :
    (makeMoveFinish x).Hash = x.Hash ^^^ Keys.SideToMove := rfl

theorem makeMoveFinish_SideToMove (x : Position) :
    (makeMoveFinish x).SideToMove = oppColor x.SideToMove := rfl

theorem makeMoveFinish_pieceBB (x : Position) (i : Nat) :
    (makeMoveFinish x).pieceBB i = x.pieceBB i := rfl

theorem makeMoveFinish_colorBB (x : Position) (i : Nat) :
    (makeMoveFinish x).colorBB i = x.colorBB i := rfl

/-- The `MoveFlag::DoublePush` branch of `makeMovePos`, written out. -/
theorem makeMovePos_dp (info : Castling.Info) (p : Position) (m : Move) (hf : m.Flag = 6) :
    makeMovePos info p m =
      makeMoveFinish
        (let q := (makeMovePrefix info p m).Insert m.Target (p.atSq m.Source)
         let newEP := Square.shift m.Source (Directions.Up p.SideToMove)
         if !BitBoard.IsDisjoint (MoveTable.Pawn q.SideToMove newEP)
             (q.pieceBB 0 &&& q.colorBB (oppColor q.SideToMove)) then
           { q with EpTarget := newEP, Hash := q.Hash ^^^ Keys.EnPassantTarget newEP }
         else q) := by
  simp only [makeMovePos, makeMoveMid, hf]
  norm_num

/-- The `MoveFlag::Normal` branch of `makeMovePos`, written out. -/
theorem makeMovePos_normal (info : Castling.Info) (p : Position) (m : Move) (hf : m.Flag = 0) :
    makeMovePos info p m =
      makeMoveFinish ((makeMovePrefix info p m).Insert m.Target (p.atSq m.Source)) := by
  simp only [makeMovePos, makeMoveMid, hf]
  norm_num

/-- C7: whenever `MakeMove` is applied to a move carrying the `DoublePush`
flag, the resulting position's `EpTarget` is the skipped square
`source >> UP` if and only if some opponent pawn could capture en passant
there — `pawn_attacks(side_to_move, new_ep) ∩ enemy_pawns ≠ ∅`, where the
opponent's pawns are read off the resulting position (its side to move is
the opponent) — and in that case exactly the skipped square's file key is
additionally XORed into the hash (compared against the same move made with
the `Normal` flag, which performs the identical remaining steps);
otherwise `EpTarget` remains `None`. -/
theorem c7_double_push_ep (info : Castling.Info) (p : Position) (m : Move) (hf : m.Flag = 6) :
    (makeMovePos info p m).EpTarget =
      (if MoveTable.Pawn p.SideToMove (Square.shift m.Source (Directions.Up p.SideToMove)) &&&
          ((makeMovePos info p m).pieceBB 0 &&&
            (makeMovePos info p m).colorBB (makeMovePos info p m).SideToMove) ≠ 0
        then Square.shift m.Source (Directions.Up p.SideToMove) else 64) ∧
    (makeMovePos info p m).Hash =
      (makeMovePos info p (Move.make m.Source m.Target 0)).Hash ^^^
        (if MoveTable.Pawn p.SideToMove (Square.shift m.Source (Directions.Up p.SideToMove)) &&&
            ((makeMovePos info p m).pieceBB 0 &&&
              (makeMovePos info p m).colorBB (makeMovePos info p m).SideToMove) ≠ 0
          then Keys.EnPassantTarget (Square.shift m.Source (Directions.Up p.SideToMove)) else 0) ∧
    (makeMovePos info p (Move.make m.Source m.Target 0)).EpTarget = 64 := by
  obtain ⟨hS, hT, hF⟩ := Move.make_normal_unpack m.Source (Move.Source_lt m) m.Target (Move.Target_lt m)
  have hpre : makeMovePrefix info p (Move.make m.Source m.Target 0) = makeMovePrefix info p m := by
    unfold makeMovePrefix
    rw [hS, hT]
  rw [makeMovePos_dp info p m hf, makeMovePos_normal info p _ hF, hS, hT, hpre]
  set q := (makeMovePrefix info p m).Insert m.Target (p.atSq m.Source) with hqdef
  set newEP := Square.shift m.Source (Directions.Up p.SideToMove) with hEPdef
  have hstm : q.SideToMove = p.SideToMove := by
    rw [hqdef, Insert_SideToMove, makeMovePrefix_SideToMove]
  have hqep : q.EpTarget = 64 := by
    rw [hqdef, Insert_EpTarget]
    exact (makeMovePrefix_EpTarget info p m).1
  by_cases hd :
      BitBoard.IsDisjoint (MoveTable.Pawn q.SideToMove newEP)
        (q.pieceBB 0 &&& q.colorBB (oppColor q.SideToMove)) = true
  · simp only [hd, Bool.not_true, if_neg (by simp : ¬ (false = true))]
    have hzero : MoveTable.Pawn p.SideToMove newEP &&&
        ((makeMoveFinish q).pieceBB 0 &&&
          (makeMoveFinish q).colorBB (makeMoveFinish q).SideToMove) = 0 := by
      rw [makeMoveFinish_pieceBB, makeMoveFinish_colorBB, makeMoveFinish_SideToMove, hstm]
      rw [BitBoard.IsDisjoint] at hd
      rw [← hstm]
      simp only [beq_iff_eq] at hd
      exact hd
    rw [if_neg (by simp [hzero]), if_neg (by simp [hzero])]
    refine ⟨?_, by rw [Nat.xor_zero], by rw [makeMoveFinish_EpTarget, hqep]⟩
    rw [makeMoveFinish_EpTarget, hqep]
  · simp only [hd, Bool.not_false, if_pos]
    have hne : ¬ (MoveTable.Pawn p.SideToMove newEP &&&
        ((makeMoveFinish { q with EpTarget := newEP, Hash := q.Hash ^^^ Keys.EnPassantTarget newEP }).pieceBB 0 &&&
          (makeMoveFinish { q with EpTarget := newEP, Hash := q.Hash ^^^ Keys.EnPassantTarget newEP }).colorBB
            (makeMoveFinish { q with EpTarget := newEP, Hash := q.Hash ^^^ Keys.EnPassantTarget newEP }).SideToMove) = 0) := by
      rw [makeMoveFinish_pieceBB, makeMoveFinish_colorBB, makeMoveFinish_SideToMove]
      have hp1 : ({ q with EpTarget := newEP, Hash := q.Hash ^^^ Keys.EnPassantTarget newEP } : Position).pieceBB 0 = q.pieceBB 0 := rfl
      have hp2 : ∀ i, ({ q with EpTarget := newEP, Hash := q.Hash ^^^ Keys.EnPassantTarget newEP } : Position).colorBB i = q.colorBB i := fun i => rfl
      have hp3 : ({ q with EpTarget := newEP, Hash := q.Hash ^^^ Keys.EnPassantTarget newEP } : Position).SideToMove = q.SideToMove := rfl
      rw [hp1, hp3, hp2, hstm, ← hstm]
      intro h0
      rw [BitBoard.IsDisjoint] at hd
      simp only [beq_iff_eq] at hd
      exact hd h0
    rw [if_pos hne, if_pos hne]
    constructor
    · rw [makeMoveFinish_EpTarget]
    · refine ⟨?_, by rw [makeMoveFinish_EpTarget, hqep]⟩
      rw [makeMoveFinish_Hash, makeMoveFinish_Hash]
      show q.Hash ^^^ Keys.EnPassantTarget newEP ^^^ Keys.SideToMove = _
      rw [Nat.xor_assoc, Nat.xor_assoc, Nat.xor_comm (Keys.EnPassantTarget newEP)]


/-- The FEN of the C7 witness: Black has a pawn on d4, so after White's
double push e2e4 the en-passant capture on e3 is possible. -/
def c7Fen : String := "rnbqkbnr/ppp1pppp/8/8/3p4/8/PPPPPPPP/RNBQKBNR w KQkq - 0 2"

/-- Witness: making the double push e2e4 (flag `DoublePush`) in `c7Fen`
sets the en-passant target to e3 (square 20), since the black d4 pawn
attacks it. -/
theorem c7_double_push_ep_witness :
    (Move.make 12 28 6).Flag = 6 ∧
      (makeMovePos (FEN.parse c7Fen).CastlingInfo (Position.ofFENString c7Fen)
        (Move.make 12 28 6)).EpTarget = 20 := by
  have h := c7_double_push_ep (FEN.parse c7Fen).CastlingInfo (Position.ofFENString c7Fen)
    (Move.make 12 28 6) (by decide!)
  refine ⟨by decide!, ?_⟩
  rw [h.1]
  decide!


/-! ## C3: hash consistency machinery -/

/-- The contribution of one square of a mailbox to the Zobrist hash. -/
def zContrib (mb : List Nat) (sq : Nat) : Nat :=
  if mb.getD sq 12 ≠ 12 then Keys.PieceOnSquare (mb.getD sq 12) sq else 0

/-- XOR of the contributions of a list of squares. -/
def zsum (l : List Nat) (mb : List Nat) : Nat := l.foldl (fun h sq => h ^^^ zContrib mb sq) 0

/-- The non-mailbox part of the Zobrist hash: side, EP file, castling keys. -/
def zbase (p : Position) : Nat :=
  (if p.SideToMove ≠ 0 then Keys.SideToMove else 0) ^^^
    (if p.EpTarget ≠ 64 then Keys.EnPassantTarget p.EpTarget else 0) ^^^
    Keys.CastlingRights p.Rights

theorem getD_set_ne' (l : List Nat) {i j : Nat} (v : Nat) (h : i ≠ j) :
    (l.set i v).getD j 12 = l.getD j 12 := by
  simp [List.getD, List.getElem?_set_ne h]

theorem getD_set_self' (l : List Nat) {i : Nat} (v : Nat) (h : i < l.length) :
    (l.set i v).getD i 12 = v := by
  simp [List.getD, List.getElem?_set_self', h]

theorem foldl_xor_shift (l : List Nat) (f : Nat → Nat) (init : Nat) :
    l.foldl (fun h sq => h ^^^ f sq) init = init ^^^ l.foldl (fun h sq => h ^^^ f sq) 0 := by
  induction l generalizing init with
  | nil => simp
  | cons a l ih =>
    simp only [List.foldl]
    rw [ih (init ^^^ f a), ih (0 ^^^ f a), Nat.zero_xor, Nat.xor_assoc]

/-- `ZobristHash` splits into the scalar keys and the mailbox sum. -/
theorem ZobristHash_eq (p : Position) :
    Position.ZobristHash p = zbase p ^^^ zsum (List.range 64) p.Mailbox := by
  simp only [Position.ZobristHash, zsum]
  have hfun : (fun (h sq : Nat) =>
      if p.Mailbox.getD sq 12 ≠ 12 then h ^^^ Keys.PieceOnSquare (p.Mailbox.getD sq 12) sq else h) =
      (fun h sq => h ^^^ zContrib p.Mailbox sq) := by
    funext h sq
    unfold zContrib
    split_ifs with hc
    · rfl
    · exact (Nat.xor_zero h).symm
  rw [hfun, foldl_xor_shift]
  have hbase : (if p.EpTarget ≠ 64 then
        (if p.SideToMove ≠ 0 then 0 ^^^ Keys.SideToMove else 0) ^^^ Keys.EnPassantTarget p.EpTarget
      else (if p.SideToMove ≠ 0 then 0 ^^^ Keys.SideToMove else 0)) ^^^
      Keys.CastlingRights p.Rights = zbase p := by
    unfold zbase
    by_cases hs : p.SideToMove ≠ 0 <;> by_cases he : p.EpTarget ≠ 64 <;> simp [hs, he]
  rw [hbase]

theorem zsum_append (l1 l2 : List Nat) (mb : List Nat) :
    zsum (l1 ++ l2) mb = zsum l1 mb ^^^ zsum l2 mb := by
  unfold zsum
  rw [List.foldl_append, foldl_xor_shift]

theorem zsum_single (n : Nat) (mb : List Nat) : zsum [n] mb = zContrib mb n := by
  simp [zsum]

theorem zsum_congr (l : List Nat) (mb1 mb2 : List Nat)
    (h : ∀ sq ∈ l, mb1.getD sq 12 = mb2.getD sq 12) : zsum l mb1 = zsum l mb2 := by
  induction l with
  | nil => rfl
  | cons a l ih =>
    have hsplit : a :: l = [a] ++ l := rfl
    rw [hsplit, zsum_append, zsum_append, zsum_single, zsum_single]
    have hc : zContrib mb1 a = zContrib mb2 a := by
      unfold zContrib
      rw [h a (List.mem_cons_self a l)]
    rw [hc, ih (fun sq hsq => h sq (List.mem_cons_of_mem a hsq))]

/-- Updating one square of the mailbox replaces its contribution in the
Zobrist mailbox sum. -/
theorem zsum_set (n : Nat) (mb : List Nat) (s v : Nat) (hs : s < n) (hlen : s < mb.length) :
    zsum (List.range n) (mb.set s v) =
      zsum (List.range n) mb ^^^ zContrib mb s ^^^ zContrib (mb.set s v) s := by
  induction n with
  | zero => omega
  | succ n ih =>
    rw [List.range_succ, zsum_append, zsum_append, zsum_single, zsum_single]
    by_cases hsn : s = n
    · subst hsn
      have hcongr : zsum (List.range s) (mb.set s v) = zsum (List.range s) mb :=
        zsum_congr _ _ _ (fun sq hsq => getD_set_ne' mb v (by
          have := List.mem_range.mp hsq
          omega))
      rw [hcongr]
      rw [Nat.xor_assoc (zsum (List.range s) mb) (zContrib mb s) (zContrib mb s)]
      rw [Nat.xor_self, Nat.xor_zero]
    · have hs' : s < n := by omega
      rw [ih hs']
      have hlast : zContrib (mb.set s v) n = zContrib mb n := by
        unfold zContrib
        rw [getD_set_ne' mb v hsn]
      rw [hlast]
      ac_rfl


/-- The per-bit decomposition of the castling key table entry. -/
def castlingKeyOfBits (b0 b1 b2 b3 : Bool) : Nat :=
  (bif b0 then Keys.whiteH else 0) ^^^ (bif b1 then Keys.whiteA else 0) ^^^
    (bif b2 then Keys.blackH else 0) ^^^ (bif b3 then Keys.blackA else 0)

theorem and_two_pow_ne (r i : Nat) : ((r &&& 2 ^ i) != 0) = r.testBit i := by
  rw [Nat.and_two_pow]
  cases h : r.testBit i <;> simp

theorem castlingRights_eq_bits (r : Nat) :
    Keys.CastlingRights r = castlingKeyOfBits (r.testBit 0) (r.testBit 1) (r.testBit 2) (r.testBit 3) := by
  unfold Keys.CastlingRights castlingKeyOfBits
  rw [show ((r &&& 1) != 0) = r.testBit 0 from and_two_pow_ne r 0,
    show ((r &&& 2) != 0) = r.testBit 1 from and_two_pow_ne r 1,
    show ((r &&& 4) != 0) = r.testBit 2 from and_two_pow_ne r 2,
    show ((r &&& 8) != 0) = r.testBit 3 from and_two_pow_ne r 3]
  cases r.testBit 0 <;> cases r.testBit 1 <;> cases r.testBit 2 <;> cases r.testBit 3 <;> rfl

/-- XORing the key of the removed rights out of the castling key of the old
rights yields the castling key of the new rights: each of the four rights
contributes its component key independently. -/
theorem castling_key_diff (r c : Nat) :
    Keys.CastlingRights r ^^^ Keys.CastlingRights (c &&& r) =
      Keys.CastlingRights (Castling.Rights.minus r c) := by
  rw [castlingRights_eq_bits, castlingRights_eq_bits, castlingRights_eq_bits]
  unfold Castling.Rights.minus
  simp only [Nat.testBit_land, Nat.testBit_xor]
  have h255 : ∀ i, i < 4 → Nat.testBit 255 i = true := by decide
  rw [h255 0 (by omega), h255 1 (by omega), h255 2 (by omega), h255 3 (by omega)]
  generalize r.testBit 0 = a0
  generalize r.testBit 1 = a1
  generalize r.testBit 2 = a2
  generalize r.testBit 3 = a3
  generalize c.testBit 0 = c0
  generalize c.testBit 1 = c1
  generalize c.testBit 2 = c2
  generalize c.testBit 3 = c3
  revert a0 a1 a2 a3 c0 c1 c2 c3
  decide


theorem key_none (sq : Nat) : Keys.PieceOnSquare 12 sq = 0 := by
  show (Keys.psqt.getD 12 []).getD sq 0 = 0
  have h12 : Keys.psqt.getD 12 [] = [] := by
    rw [List.getD_eq_default]
    show Keys.psqt.length ≤ 12
    rw [show Keys.psqt.length = 12 from rfl]
  rw [h12]
  rfl

theorem psqt_row_le (piece : Nat) : (Keys.psqt.getD piece []).length ≤ 64 := by
  by_cases h : piece < 12
  · have hb : ∀ q, q < 12 → (Keys.psqt.getD q []).length ≤ 64 := by decide!
    exact hb piece h
  · rw [List.getD_eq_default]
    · simp
    · rw [show Keys.psqt.length = 12 from rfl]
      omega

theorem key_oob (piece sq : Nat) (h : 64 ≤ sq) : Keys.PieceOnSquare piece sq = 0 := by
  show (Keys.psqt.getD piece []).getD sq 0 = 0
  rw [List.getD_eq_default _ _ (le_trans (psqt_row_le piece) h)]

theorem Insert_Mailbox_length (p : Position) (sq pc : Nat) :
    (p.Insert sq pc).Mailbox.length = p.Mailbox.length := by
  rw [Insert_Mailbox, List.length_set]

theorem Remove_Mailbox_length (p : Position) (sq : Nat) :
    (p.Remove sq).Mailbox.length = p.Mailbox.length := by
  rw [Remove_Mailbox, List.length_set]

/-- `Insert` preserves hash consistency whenever the target square is empty
(inserting anywhere at or beyond square 64 is a no-op for the recomputed
hash and XORs a zero key). -/
theorem consistent_Insert (p : Position) (sq piece : Nat)
    (hc : p.Hash = Position.ZobristHash p) (hlen : p.Mailbox.length = 64)
    (hemp : p.atSq sq = 12) :
    (p.Insert sq piece).Hash = Position.ZobristHash (p.Insert sq piece) := by
  rw [Insert_Hash, hc, ZobristHash_eq, ZobristHash_eq]
  have hzb : zbase (p.Insert sq piece) = zbase p := rfl
  rw [hzb, Insert_Mailbox]
  by_cases hs : sq < 64
  · rw [zsum_set 64 p.Mailbox sq piece hs (by omega)]
    have hold : zContrib p.Mailbox sq = 0 := by
      unfold zContrib
      rw [show p.Mailbox.getD sq 12 = 12 from hemp]
      simp
    have hnew : zContrib (p.Mailbox.set sq piece) sq = Keys.PieceOnSquare piece sq := by
      unfold zContrib
      rw [getD_set_self' _ _ (by omega)]
      by_cases hp : piece = 12
      · subst hp
        rw [key_none]
        simp
      · rw [if_pos hp]
    rw [hold, hnew, Nat.xor_zero]
    ac_rfl
  · have hzs : zsum (List.range 64) (p.Mailbox.set sq piece) = zsum (List.range 64) p.Mailbox :=
      zsum_congr _ _ _ (fun q hq => getD_set_ne' _ _ (by
        have := List.mem_range.mp hq
        omega))
    rw [hzs, key_oob piece sq (by omega), Nat.xor_zero]

/-- `Remove` preserves hash consistency unconditionally: removing the piece
found in the mailbox XORs out exactly its contribution (an empty square or
an out-of-range square contributes the zero key). -/
theorem consistent_Remove (p : Position) (sq : Nat)
    (hc : p.Hash = Position.ZobristHash p) (hlen : p.Mailbox.length = 64) :
    (p.Remove sq).Hash = Position.ZobristHash (p.Remove sq) := by
  rw [Remove_Hash, hc, ZobristHash_eq, ZobristHash_eq]
  have hzb : zbase (p.Remove sq) = zbase p := rfl
  rw [hzb, Remove_Mailbox]
  by_cases hs : sq < 64
  · rw [zsum_set 64 p.Mailbox sq 12 hs (by omega)]
    have hnew : zContrib (p.Mailbox.set sq 12) sq = 0 := by
      unfold zContrib
      rw [getD_set_self' _ _ (by omega)]
      simp
    have hold : zContrib p.Mailbox sq =
        (if p.atSq sq ≠ 12 then Keys.PieceOnSquare (p.atSq sq) sq else 0) := rfl
    rw [hnew, hold, Nat.xor_zero]
    by_cases hocc : p.atSq sq = 12
    · rw [hocc, key_none, if_neg (by simp [hocc])]
      · simp [hocc]
    · rw [if_pos hocc]
      ac_rfl
  · have hzs : zsum (List.range 64) (p.Mailbox.set sq 12) = zsum (List.range 64) p.Mailbox :=
      zsum_congr _ _ _ (fun q hq => getD_set_ne' _ _ (by
        have := List.mem_range.mp hq
        omega))
    rw [hzs]
    have hocc : p.atSq sq = 12 := by
      show p.Mailbox.getD sq 12 = 12
      rw [List.getD_eq_default _ _ (by omega)]
    rw [hocc, key_none, Nat.xor_zero]


/-- `Position::ZobristHash` reads only the side to move, the EP target, the
castling rights and the mailbox. -/
theorem ZobristHash_congr (p q : Position) (h1 : q.SideToMove = p.SideToMove)
    (h2 : q.EpTarget = p.EpTarget) (h3 : q.Rights = p.Rights) (h4 : q.Mailbox = p.Mailbox) :
    Position.ZobristHash q = Position.ZobristHash p := by
  unfold Position.ZobristHash
  rw [h1, h2, h3, h4]

theorem CastlingRights_zero : Keys.CastlingRights 0 = 0 := rfl

theorem zContrib_nil (sq : Nat) : zContrib [] sq = 0 := rfl

theorem zsum_mb_nil (l : List Nat) : zsum l [] = 0 := by
  induction l with
  | nil => rfl
  | cons a l ih =>
    rw [show a :: l = [a] ++ l from rfl, zsum_append, zsum_single, zContrib_nil, ih]
    rfl

theorem replicate64_getD (sq : Nat) : (List.replicate 64 12).getD sq 12 = 12 := by
  rw [List.getD_eq_getElem?_getD]
  by_cases h : sq < 64
  · rw [List.getElem?_replicate, if_pos h]
    rfl
  · rw [List.getElem?_replicate, if_neg h]
    rfl

/-- The draw clock does not enter the recomputed hash. -/
theorem consistent_drawclock (x : Position) (hc : x.Hash = Position.ZobristHash x) :
    ({ x with DrawClock := 0 } : Position).Hash =
      Position.ZobristHash { x with DrawClock := 0 } := by
  show x.Hash = _
  rw [hc]
  exact (ZobristHash_congr x { x with DrawClock := 0 } rfl rfl rfl rfl).symm

theorem consistent_mmClock (p : Position) (hc : p.Hash = Position.ZobristHash p) :
    (mmClock p).Hash = Position.ZobristHash (mmClock p) := by
  show p.Hash = _
  rw [hc]
  exact (ZobristHash_congr p (mmClock p) rfl rfl rfl rfl).symm

theorem mmClock_Mailbox (p : Position) : (mmClock p).Mailbox = p.Mailbox := rfl

theorem mmEpClear_Mailbox (p : Position) : (mmEpClear p).Mailbox = p.Mailbox := by
  unfold mmEpClear
  split_ifs <;> rfl

theorem mmEpClear_SideToMove (p : Position) : (mmEpClear p).SideToMove = p.SideToMove := by
  unfold mmEpClear
  split_ifs <;> rfl

theorem mmEpClear_EpTarget (p : Position) : (mmEpClear p).EpTarget = 64 := by
  unfold mmEpClear
  split_ifs with h
  · rfl
  · simp only [not_not] at h
    exact h

theorem mmRights_Mailbox (info : Castling.Info) (s t : Nat) (p : Position) :
    (mmRights info s t p).Mailbox = p.Mailbox := rfl

theorem mmRights_EpTarget (info : Castling.Info) (s t : Nat) (p : Position) :
    (mmRights info s t p).EpTarget = p.EpTarget := rfl

theorem mmRights_SideToMove (info : Castling.Info) (s t : Nat) (p : Position) :
    (mmRights info s t p).SideToMove = p.SideToMove := rfl

theorem consistent_mmEpClear (p : Position) (hc : p.Hash = Position.ZobristHash p) :
    (mmEpClear p).Hash = Position.ZobristHash (mmEpClear p) := by
  unfold mmEpClear
  split_ifs with he
  · rw [ZobristHash_eq]
    show p.Hash ^^^ Keys.EnPassantTarget p.EpTarget = _
    rw [hc, ZobristHash_eq]
    unfold zbase
    dsimp only
    rw [if_pos he, if_neg (show ¬((64:Nat) ≠ 64) from by omega)]
    generalize (if p.SideToMove ≠ 0 then Keys.SideToMove else 0) = A
    generalize Keys.EnPassantTarget p.EpTarget = E
    generalize Keys.CastlingRights p.Rights = C
    generalize zsum (List.range 64) p.Mailbox = Z
    rw [Nat.xor_zero]
    rw [show A ^^^ E ^^^ C ^^^ Z ^^^ E = (A ^^^ C ^^^ Z) ^^^ (E ^^^ E) from by ac_rfl,
      Nat.xor_self, Nat.xor_zero]
  · exact hc

theorem consistent_mmRights (info : Castling.Info) (s t : Nat) (p : Position)
    (hc : p.Hash = Position.ZobristHash p) :
    (mmRights info s t p).Hash = Position.ZobristHash (mmRights info s t p) := by
  unfold mmRights
  rw [ZobristHash_eq]
  show p.Hash ^^^ Keys.CastlingRights ((info.Mask s ||| info.Mask t) &&& p.Rights) = _
  rw [hc, ZobristHash_eq]
  unfold zbase
  dsimp only
  rw [← castling_key_diff p.Rights (info.Mask s ||| info.Mask t)]
  ac_rfl


/-- Flipping the side to move while XORing in the side key preserves hash
consistency (for the two valid colors). -/
theorem consistent_finish_of (x : Position) (hc : x.Hash = Position.ZobristHash x)
    (hstm : x.SideToMove < 2) :
    (makeMoveFinish x).Hash = Position.ZobristHash (makeMoveFinish x) := by
  rw [makeMoveFinish_Hash, hc, ZobristHash_eq, ZobristHash_eq]
  have hm : (makeMoveFinish x).Mailbox = x.Mailbox := rfl
  rw [hm]
  have hz : zbase (makeMoveFinish x) = zbase x ^^^ Keys.SideToMove := by
    unfold zbase
    have hs : (makeMoveFinish x).SideToMove = oppColor x.SideToMove := rfl
    have he : (makeMoveFinish x).EpTarget = x.EpTarget := rfl
    have hr : (makeMoveFinish x).Rights = x.Rights := rfl
    rw [hs, he, hr]
    generalize (if x.EpTarget ≠ 64 then Keys.EnPassantTarget x.EpTarget else 0) = E
    generalize Keys.CastlingRights x.Rights = C
    have h01 : x.SideToMove = 0 ∨ x.SideToMove = 1 := by omega
    rcases h01 with h | h <;> rw [h]
    · rw [show oppColor 0 = 1 from rfl, if_pos (by omega), if_neg (by omega)]
      generalize Keys.SideToMove = K
      rw [Nat.zero_xor]
      ac_rfl
    · rw [show oppColor 1 = 0 from rfl, if_neg (by omega), if_pos (by omega)]
      generalize Keys.SideToMove = K
      rw [Nat.zero_xor]
      rw [show K ^^^ E ^^^ C ^^^ K = (E ^^^ C) ^^^ (K ^^^ K) from by ac_rfl,
        Nat.xor_self, Nat.xor_zero]
  rw [hz]
  ac_rfl

theorem makeMoveFinish_Mailbox (x : Position) : (makeMoveFinish x).Mailbox = x.Mailbox := rfl

theorem makeMoveFinish_Rights (x : Position) : (makeMoveFinish x).Rights = x.Rights := rfl

/-- The mailbox after the flag-independent prefix of `MakeMove`: the source
square (and, on captures, the target square) cleared. -/
theorem makeMovePrefix_Mailbox (info : Castling.Info) (p : Position) (m : Move) :
    (makeMovePrefix info p m).Mailbox =
      (if p.atSq m.Target ≠ 12 then (p.Mailbox.set m.Source 12).set m.Target 12
       else p.Mailbox.set m.Source 12) := by
  simp only [makeMovePrefix]
  split_ifs with hcap hpawn <;>
    simp [Remove_Mailbox, mmRights_Mailbox, mmEpClear_Mailbox, mmClock_Mailbox, hcap]

theorem makeMovePrefix_len (info : Castling.Info) (p : Position) (m : Move)
    (hlen : p.Mailbox.length = 64) : (makeMovePrefix info p m).Mailbox.length = 64 := by
  rw [makeMovePrefix_Mailbox]
  split_ifs <;> simp [hlen]

/-- After the prefix the target square of the move is empty: either it was
already empty (quiet move) or the captured piece has been removed. -/
theorem prefix_target_empty (info : Castling.Info) (p : Position) (m : Move)
    (hlen : p.Mailbox.length = 64) :
    (makeMovePrefix info p m).atSq m.Target = 12 := by
  have ht : m.Target < 64 := Move.Target_lt m
  show (makeMovePrefix info p m).Mailbox.getD m.Target 12 = 12
  rw [makeMovePrefix_Mailbox]
  split_ifs with hcap
  · rw [getD_set_self' _ _ (by rw [List.length_set, hlen]; omega)]
  · simp only [not_not] at hcap
    by_cases hst : m.Source = m.Target
    · rw [← hst, getD_set_self' _ _ (by omega)]
    · rw [getD_set_ne' _ _ hst]
      exact hcap

/-- The flag-independent prefix of `MakeMove` preserves hash consistency. -/
theorem consistent_prefix (info : Castling.Info) (p : Position) (m : Move)
    (hc : p.Hash = Position.ZobristHash p) (hlen : p.Mailbox.length = 64) :
    (makeMovePrefix info p m).Hash = Position.ZobristHash (makeMovePrefix info p m) := by
  have h3 := consistent_mmRights info m.Source m.Target _
    (consistent_mmEpClear _ (consistent_mmClock p hc))
  have hlen3 : (mmRights info m.Source m.Target (mmEpClear (mmClock p))).Mailbox.length = 64 := by
    rw [mmRights_Mailbox, mmEpClear_Mailbox, mmClock_Mailbox]
    exact hlen
  have h4 := consistent_Remove _ m.Source h3 hlen3
  have hlen4 : ((mmRights info m.Source m.Target (mmEpClear (mmClock p))).Remove
      m.Source).Mailbox.length = 64 := by
    rw [Remove_Mailbox_length]
    exact hlen3
  have h5 := consistent_Remove _ m.Target h4 hlen4
  simp only [makeMovePrefix]
  split_ifs with hcap hpawn
  · exact consistent_drawclock _ h5
  · exact consistent_drawclock _ h4
  · exact h4


theorem pawn_table_oob (c sq : Nat) (h : 64 ≤ sq) : MoveTable.Pawn c sq = 0 := by
  unfold MoveTable.Pawn
  split_ifs
  · exact List.getD_eq_default _ _ (by rw [show MoveTable.pawnW.length = 64 from rfl]; omega)
  · exact List.getD_eq_default _ _ (by rw [show MoveTable.pawnB.length = 64 from rfl]; omega)

theorem pawn_nonzero_lt (c sq : Nat) (h : MoveTable.Pawn c sq ≠ 0) : sq < 64 := by
  by_contra hge
  exact h (pawn_table_oob c sq (by omega))

/-- Setting a (valid) EP target while XORing in its file key preserves hash
consistency. -/
theorem consistent_ep_set (q : Position) (e : Nat)
    (hc : q.Hash = Position.ZobristHash q) (hq : q.EpTarget = 64) (he : e ≠ 64) :
    ({ q with EpTarget := e, Hash := q.Hash ^^^ Keys.EnPassantTarget e } : Position).Hash =
      Position.ZobristHash { q with EpTarget := e, Hash := q.Hash ^^^ Keys.EnPassantTarget e } := by
  show q.Hash ^^^ Keys.EnPassantTarget e = _
  rw [hc, ZobristHash_eq, ZobristHash_eq]
  unfold zbase
  dsimp only
  rw [hq, if_neg (show ¬((64:Nat) ≠ 64) from by omega), if_pos he]
  generalize (if q.SideToMove ≠ 0 then Keys.SideToMove else 0) = A
  generalize Keys.EnPassantTarget e = E
  generalize Keys.CastlingRights q.Rights = C
  generalize zsum (List.range 64) q.Mailbox = Z
  rw [Nat.xor_zero]
  ac_rfl

theorem makeMoveMid_SideToMove (info : Castling.Info) (p : Position) (m : Move) :
    (makeMoveMid info p m).SideToMove = p.SideToMove := by
  simp only [makeMoveMid]
  split_ifs <;>
    simp [doCastling, Insert_SideToMove, Remove_SideToMove, makeMovePrefix_SideToMove]

/-- The flag switch of `MakeMove` preserves hash consistency, given the
emptiness assertions of the debug build. -/
theorem consistent_mid (info : Castling.Info) (p : Position) (m : Move)
    (hc : p.Hash = Position.ZobristHash p) (hlen : p.Mailbox.length = 64)
    (hok : MakeMoveOk info p m = true) :
    (makeMoveMid info p m).Hash = Position.ZobristHash (makeMoveMid info p m) := by
  have hp5 := consistent_prefix info p m hc hlen
  have hlen5 := makeMovePrefix_len info p m hlen
  have hemp := prefix_target_empty info p m hlen
  have hep5 : (makeMovePrefix info p m).EpTarget = 64 := (makeMovePrefix_EpTarget info p m).1
  have hstm5 := makeMovePrefix_SideToMove info p m
  simp only [MakeMoveOk, Bool.and_eq_true] at hok
  obtain ⟨⟨hsrc, hepok⟩, hcastok⟩ := hok
  simp only [makeMoveMid]
  split_ifs with h0 h6 hd h7 h8 h5 h4 h1 h2 h3
  · exact consistent_Insert _ m.Target _ hp5 hlen5 hemp
  · refine consistent_ep_set _ _ ?_ ?_ ?_
    · exact consistent_Insert _ m.Target _ hp5 hlen5 hemp
    · rw [Insert_EpTarget]
      exact hep5
    · have hpz : MoveTable.Pawn
          ((makeMovePrefix info p m).Insert m.Target (p.atSq m.Source)).SideToMove
          (Square.shift m.Source (Directions.Up p.SideToMove)) ≠ 0 := by
        intro hz
        simp only [BitBoard.IsDisjoint] at hd
        rw [hz, Nat.zero_and] at hd
        simp at hd
      have := pawn_nonzero_lt _ _ hpz
      omega
  · exact consistent_Insert _ m.Target _ hp5 hlen5 hemp
  · rw [if_pos (Or.inl h7), if_pos h7] at hcastok
    simp only [Bool.and_eq_true, decide_eq_true_eq] at hcastok
    obtain ⟨hC1, hC2⟩ := hcastok
    simp only [doCastling]
    rw [makeMovePrefix_SideToMove]
    refine consistent_Insert _ _ _ ?_ ?_ hC2
    · exact consistent_Insert _ _ _ hp5 hlen5 hC1
    · rw [Insert_Mailbox_length]
      exact hlen5
  · rw [if_pos (Or.inr h8), if_neg (by omega)] at hcastok
    simp only [Bool.and_eq_true, decide_eq_true_eq] at hcastok
    obtain ⟨hC1, hC2⟩ := hcastok
    simp only [doCastling]
    rw [makeMovePrefix_SideToMove]
    refine consistent_Insert _ _ _ ?_ ?_ hC2
    · exact consistent_Insert _ _ _ hp5 hlen5 hC1
    · rw [Insert_Mailbox_length]
      exact hlen5
  · refine consistent_Remove _ _ ?_ ?_
    · exact consistent_Insert _ m.Target _ hp5 hlen5 hemp
    · rw [Insert_Mailbox_length]
      exact hlen5
  · exact consistent_Insert _ m.Target _ hp5 hlen5 hemp
  · exact consistent_Insert _ m.Target _ hp5 hlen5 hemp
  · exact consistent_Insert _ m.Target _ hp5 hlen5 hemp
  · exact consistent_Insert _ m.Target _ hp5 hlen5 hemp
  · exact hp5


/-- The piece-insertion loop of `Position(const FEN&)` keeps the hash
consistent: each occupied FEN square is inserted into a still-empty square. -/
theorem ofFEN_fold (fen : FEN) (l : List Nat) :
    ∀ (p : Position), l.Nodup →
      p.Hash = Position.ZobristHash p → p.Mailbox.length = 64 →
      (∀ q ∈ l, p.atSq q = 12) →
      (l.foldl (fenInsertStep fen) p).Hash =
        Position.ZobristHash (l.foldl (fenInsertStep fen) p) := by
  induction l with
  | nil =>
    intro p _ hc _ _
    exact hc
  | cons a l ih =>
    intro p hnd hc hlen hemp
    simp only [List.foldl_cons]
    have hnd' : l.Nodup := (List.nodup_cons.mp hnd).2
    have hna : a ∉ l := (List.nodup_cons.mp hnd).1
    by_cases hfa : fen.Mailbox.getD a 12 ≠ 12
    · have hstep : fenInsertStep fen p a = p.Insert a (fen.Mailbox.getD a 12) := by
        unfold fenInsertStep
        rw [if_pos hfa]
      rw [hstep]
      refine ih _ hnd' ?_ ?_ ?_
      · exact consistent_Insert p a _ hc hlen (hemp a (List.mem_cons_self a l))
      · rw [Insert_Mailbox_length]
        exact hlen
      · intro q hq
        show (p.Insert a (fen.Mailbox.getD a 12)).Mailbox.getD q 12 = 12
        rw [Insert_Mailbox, getD_set_ne' _ _ (fun h => hna (by rw [h]; exact hq))]
        exact hemp q (List.mem_cons_of_mem a hq)
    · have hstep : fenInsertStep fen p a = p := by
        unfold fenInsertStep
        rw [if_neg hfa]
      rw [hstep]
      exact ih _ hnd' hc hlen (fun q hq => hemp q (List.mem_cons_of_mem a hq))

/-- The scalar initialisation of `Position(const FEN&)` is hash-consistent:
its conditional key XORs match the recomputation on an empty board. -/
theorem consistent_ofFENBase (fen : FEN) :
    (ofFENBase fen).Hash = Position.ZobristHash (ofFENBase fen) := by
  rw [ZobristHash_eq]
  have hm : (ofFENBase fen).Mailbox = List.replicate 64 12 := rfl
  rw [hm]
  have hz : zsum (List.range 64) (List.replicate 64 12) = 0 := by
    rw [zsum_congr _ _ [] (fun sq _ => by rw [replicate64_getD]; rfl)]
    exact zsum_mb_nil _
  rw [hz, Nat.xor_zero]
  unfold zbase
  simp only [ofFENBase]
  split_ifs <;> simp_all [CastlingRights_zero, Nat.zero_xor]

theorem fold_SideToMove (fen : FEN) (l : List Nat) :
    ∀ (p : Position), (l.foldl (fenInsertStep fen) p).SideToMove = p.SideToMove := by
  induction l with
  | nil => intro p; rfl
  | cons a l ih =>
    intro p
    rw [List.foldl_cons, ih]
    unfold fenInsertStep
    split_ifs <;> rfl

theorem fold_len (fen : FEN) (l : List Nat) :
    ∀ (p : Position), (l.foldl (fenInsertStep fen) p).Mailbox.length = p.Mailbox.length := by
  induction l with
  | nil => intro p; rfl
  | cons a l ih =>
    intro p
    rw [List.foldl_cons, ih]
    unfold fenInsertStep
    split_ifs
    · rw [Insert_Mailbox_length]
    · rfl

/-- `Position(const FEN&)` is hash-consistent. -/
theorem consistent_ofFEN (fen : FEN) :
    (Position.ofFEN fen).Hash = Position.ZobristHash (Position.ofFEN fen) := by
  unfold Position.ofFEN
  have hfold := ofFEN_fold fen (List.range 64) (ofFENBase fen) (List.nodup_range 64)
    (consistent_ofFENBase fen)
    (by rw [show (ofFENBase fen).Mailbox = List.replicate 64 12 from rfl]
        exact List.length_replicate 64 12)
    (fun q _ => replicate64_getD q)
  rw [GenerateCheckers_Hash, hfold]
  exact (ZobristHash_congr _ _ rfl rfl rfl rfl).symm

theorem ofFEN_SideToMove (fen : FEN) : (Position.ofFEN fen).SideToMove = fen.SideToMove := by
  unfold Position.ofFEN
  rw [GenerateCheckers_SideToMove, fold_SideToMove]
  rfl

theorem ofFEN_len (fen : FEN) : (Position.ofFEN fen).Mailbox.length = 64 := by
  unfold Position.ofFEN
  rw [GenerateCheckers_Mailbox, fold_len]
  exact List.length_replicate 64 12

theorem FEN_parse_stm_lt (s : String) : (FEN.parse s).SideToMove < 2 := by
  simp only [FEN.parse]
  split_ifs <;> omega

theorem makeMoveMid_len (info : Castling.Info) (p : Position) (m : Move)
    (hlen : p.Mailbox.length = 64) : (makeMoveMid info p m).Mailbox.length = 64 := by
  have h5 := makeMovePrefix_len info p m hlen
  simp only [makeMoveMid]
  split_ifs
  · rw [Insert_Mailbox_length]
    exact h5
  · show ((makeMovePrefix info p m).Insert m.Target (p.atSq m.Source)).Mailbox.length = 64
    rw [Insert_Mailbox_length]
    exact h5
  · rw [Insert_Mailbox_length]
    exact h5
  · simp only [doCastling]
    rw [Insert_Mailbox_length, Insert_Mailbox_length]
    exact h5
  · simp only [doCastling]
    rw [Insert_Mailbox_length, Insert_Mailbox_length]
    exact h5
  · rw [Remove_Mailbox_length, Insert_Mailbox_length]
    exact h5
  · rw [Insert_Mailbox_length]
    exact h5
  · rw [Insert_Mailbox_length]
    exact h5
  · rw [Insert_Mailbox_length]
    exact h5
  · rw [Insert_Mailbox_length]
    exact h5
  · exact h5

theorem makeMovePos_len (info : Castling.Info) (p : Position) (m : Move)
    (hlen : p.Mailbox.length = 64) : (makeMovePos info p m).Mailbox.length = 64 := by
  unfold makeMovePos
  rw [makeMoveFinish_Mailbox]
  exact makeMoveMid_len info p m hlen

theorem makeMovePos_stm_lt (info : Castling.Info) (p : Position) (m : Move)
    (hstm : p.SideToMove < 2) : (makeMovePos info p m).SideToMove < 2 := by
  unfold makeMovePos
  rw [makeMoveFinish_SideToMove, makeMoveMid_SideToMove]
  have h01 : p.SideToMove = 0 ∨ p.SideToMove = 1 := by omega
  rcases h01 with h | h <;> rw [h] <;> decide

theorem consistent_makeMovePos (info : Castling.Info) (p : Position) (m : Move)
    (hc : p.Hash = Position.ZobristHash p) (hstm : p.SideToMove < 2)
    (hlen : p.Mailbox.length = 64) (hok : MakeMoveOk info p m = true) :
    (makeMovePos info p m).Hash = Position.ZobristHash (makeMovePos info p m) := by
  unfold makeMovePos
  refine consistent_finish_of _ (consistent_mid info p m hc hlen hok) ?_
  rw [makeMoveMid_SideToMove]
  exact hstm


/-- C3: hash consistency is an invariant of the reachable positions of a
`Board`: the position parsed from any FEN string satisfies
`Hash = ZobristHash(position)` (first conjunct, which also establishes the
auxiliary invariants: a valid side to move and a 64-entry mailbox), and the
`MakeMove` position mutation preserves the invariant for every move whose
debug-build assertions hold — in particular for every generated legal move
(second conjunct).  The incremental piece insert/remove keys, the
en-passant file key, the castling-rights key difference and the
side-to-move key therefore keep the incrementally maintained hash equal to
the full recomputation `Position::ZobristHash`. -/
theorem c3_hash_consistency :
    (∀ s : String,
      (Position.ofFENString s).Hash = Position.ZobristHash (Position.ofFENString s) ∧
      (Position.ofFENString s).SideToMove < 2 ∧
      (Position.ofFENString s).Mailbox.length = 64) ∧
    (∀ (info : Castling.Info) (p : Position) (m : Move),
      p.Hash = Position.ZobristHash p → p.SideToMove < 2 → p.Mailbox.length = 64 →
      MakeMoveOk info p m = true →
      (makeMovePos info p m).Hash = Position.ZobristHash (makeMovePos info p m) ∧
      (makeMovePos info p m).SideToMove < 2 ∧
      (makeMovePos info p m).Mailbox.length = 64) := by
  constructor
  · intro s
    refine ⟨consistent_ofFEN _, ?_, ofFEN_len _⟩
    show (Position.ofFEN (FEN.parse s)).SideToMove < 2
    rw [ofFEN_SideToMove]
    exact FEN_parse_stm_lt s
  · intro info p m hc hstm hlen hok
    exact ⟨consistent_makeMovePos info p m hc hstm hlen hok,
      makeMovePos_stm_lt info p m hstm, makeMovePos_len info p m hlen⟩

/-- Witness: the start position is hash-consistent, and stays so after
making the double pawn push e2e4 on it. -/
theorem c3_hash_consistency_witness :
    (makeMovePos startBoard.castlingInfo (Position.ofFENString startFen)
        (Move.make 12 28 6)).Hash =
      Position.ZobristHash (makeMovePos startBoard.castlingInfo
        (Position.ofFENString startFen) (Move.make 12 28 6)) :=
  (c3_hash_consistency.2 startBoard.castlingInfo (Position.ofFENString startFen)
    (Move.make 12 28 6)
    (c3_hash_consistency.1 startFen).1
    (c3_hash_consistency.1 startFen).2.1
    (c3_hash_consistency.1 startFen).2.2
    (by decide!)).1



/-- The packed byte-reversal table is a bit reversal on bytes. -/
theorem revByte_spec : ∀ v < 256, ∀ j < 8, (revByte v).testBit j = v.testBit (7 - j) := by decide!

theorem and255_lt (x : Nat) : x &&& 255 < 256 :=
  Nat.lt_succ_of_le Nat.and_le_right

theorem revByte_lt (v : Nat) : revByte v < 256 :=
  Nat.lt_succ_of_le Nat.and_le_right

theorem revByte_hi (v j : Nat) (h : 8 ≤ j) : (revByte v).testBit j = false :=
  Nat.testBit_lt_two_pow (lt_of_lt_of_le (show revByte v < 2 ^ 8 from revByte_lt v)
    (Nat.pow_le_pow_right (by omega) h))

theorem revByte_bit (x j : Nat) (h : j < 8) :
    (revByte (x &&& 255)).testBit j = x.testBit (7 - j) := by
  rw [revByte_spec (x &&& 255) (and255_lt x) j h, Nat.testBit_and]
  have h255 : (255 : Nat).testBit (7 - j) = true := by
    rw [show (255 : Nat) = 2 ^ 8 - 1 from rfl, Nat.testBit_two_pow_sub_one]
    simp
    omega
  rw [h255, Bool.and_true]

theorem revByte_mod2 (x : Nat) :
    decide (revByte (x &&& 255) % 2 = 1) = x.testBit 7 := by
  rw [← Nat.testBit_zero, revByte_bit x 0 (by omega)]

/-- `BitBoard::reverse` reverses the 64 bit positions. -/
theorem reverse_testBit (n i : Nat) (hi : i < 64) :
    (BitBoard.reverse n).testBit i = n.testBit (63 - i) := by
  unfold BitBoard.reverse
  interval_cases i <;>
    simp [Nat.testBit_lor, Nat.testBit_shiftLeft, revByte_hi, revByte_bit, revByte_mod2,
      Nat.testBit_shiftRight]

theorem shift56_bound (v c : Nat) (hv : v < 256) (hc : c ≤ 56) : (v <<< c) < 2 ^ 64 := by
  rw [Nat.shiftLeft_eq]
  calc v * 2 ^ c ≤ 255 * 2 ^ 56 :=
        Nat.mul_le_mul (by omega) (Nat.pow_le_pow_right (by omega) hc)
    _ < 2 ^ 64 := by norm_num

theorem reverse_lt (n : Nat) : BitBoard.reverse n < 2 ^ 64 := by
  unfold BitBoard.reverse
  refine Nat.or_lt_two_pow ?_ (shift56_bound _ _ (revByte_lt _) (by omega))
  refine Nat.or_lt_two_pow ?_ (shift56_bound _ _ (revByte_lt _) (by omega))
  refine Nat.or_lt_two_pow ?_ (shift56_bound _ _ (revByte_lt _) (by omega))
  refine Nat.or_lt_two_pow ?_ (shift56_bound _ _ (revByte_lt _) (by omega))
  refine Nat.or_lt_two_pow ?_ (shift56_bound _ _ (revByte_lt _) (by omega))
  refine Nat.or_lt_two_pow ?_ (shift56_bound _ _ (revByte_lt _) (by omega))
  refine Nat.or_lt_two_pow ?_ (shift56_bound _ _ (revByte_lt _) (by omega))
  exact shift56_bound _ _ (revByte_lt _) (by omega)

theorem reverse_reverse (n : Nat) (hn : n < 2 ^ 64) :
    BitBoard.reverse (BitBoard.reverse n) = n := by
  refine Nat.eq_of_testBit_eq (fun i => ?_)
  by_cases hi : i < 64
  · rw [reverse_testBit _ i hi, reverse_testBit _ (63 - i) (by omega),
      show 63 - (63 - i) = i from by omega]
  · rw [Nat.testBit_lt_two_pow (lt_of_lt_of_le (reverse_lt _)
      (Nat.pow_le_pow_right (by omega) (by omega))),
      Nat.testBit_lt_two_pow (lt_of_lt_of_le hn (Nat.pow_le_pow_right (by omega) (by omega)))]

theorem sqBB_eq (s : Nat) (hs : s < 64) : sqBB s = 2 ^ s := by
  unfold sqBB
  rw [Nat.shiftLeft_eq, Nat.one_mul, Nat.mod_eq_of_lt]
  show 2 ^ s < 2 ^ 64
  exact Nat.pow_lt_pow_right (by omega) hs

theorem reverse_pow (s : Nat) (hs : s < 64) :
    BitBoard.reverse (2 ^ s) = 2 ^ (63 - s) := by
  refine Nat.eq_of_testBit_eq (fun i => ?_)
  by_cases hi : i < 64
  · rw [reverse_testBit _ i hi, Nat.testBit_two_pow, Nat.testBit_two_pow, decide_eq_decide]
    omega
  · rw [Nat.testBit_lt_two_pow (lt_of_lt_of_le (reverse_lt _)
      (Nat.pow_le_pow_right (by omega) (by omega))),
      Nat.testBit_lt_two_pow (lt_of_lt_of_le
        (Nat.pow_lt_pow_right (by omega) (by omega : 63 - s < 64))
        (Nat.pow_le_pow_right (by omega) (by omega)))]


/-- Bit `j` of `a * 2 ^ p + b` (with `b < 2 ^ p`): the low bits come from
`b`, the high bits from `a`. -/
theorem testBit_split (a b p j : Nat) (hb : b < 2 ^ p) :
    (a * 2 ^ p + b).testBit j = if j < p then b.testBit j else a.testBit (j - p) := by
  rcases Nat.lt_or_ge j p with hj | hj
  · rw [if_pos hj, Nat.testBit_to_div_mod, Nat.testBit_to_div_mod]
    have h2 : a * 2 ^ p = 2 * (a * 2 ^ (p - j - 1)) * 2 ^ j := by
      have hpe : (2:Nat) ^ p = 2 ^ 1 * 2 ^ (p - j - 1) * 2 ^ j := by
        rw [← pow_add, ← pow_add]
        congr 1
        omega
      rw [hpe]
      ring
    have hdiv : (a * 2 ^ p + b) / 2 ^ j = 2 * (a * 2 ^ (p - j - 1)) + b / 2 ^ j := by
      rw [h2, Nat.add_comm, Nat.add_mul_div_right _ _ (Nat.pos_pow_of_pos j (by omega)),
        Nat.add_comm]
    rw [hdiv, Nat.mul_add_mod]
  · rw [if_neg (by omega), Nat.testBit_to_div_mod, Nat.testBit_to_div_mod]
    have hdiv : (a * 2 ^ p + b) / 2 ^ j = a / 2 ^ (j - p) := by
      have h2 : (2:Nat) ^ j = 2 ^ p * 2 ^ (j - p) := by
        rw [← pow_add]
        congr 1
        omega
      rw [h2, ← Nat.div_div_eq_div_mul]
      congr 1
      rw [Nat.add_comm, Nat.add_mul_div_right _ _ (Nat.pos_pow_of_pos p (by omega)),
        Nat.div_eq_of_lt hb, Nat.zero_add]
    rw [hdiv]

/-- `(h - 1) ^^^ h` is the all-ones span up to and including the lowest set
bit of `h`. -/
theorem pred_xor_testBit : ∀ h : Nat, 0 < h → ∀ j, ((h - 1) ^^^ h).testBit j =
    decide (∀ q, q < j → h.testBit q = false) := by
  intro h
  induction h using Nat.strong_induction_on with
  | _ h ih =>
    intro hpos j
    cases j with
    | zero =>
      rw [Nat.testBit_xor, Nat.testBit_zero, Nat.testBit_zero]
      have h2 : (h - 1) % 2 = 1 ∧ h % 2 = 0 ∨ (h - 1) % 2 = 0 ∧ h % 2 = 1 := by omega
      rcases h2 with ⟨ha, hb⟩ | ⟨ha, hb⟩ <;> simp [ha, hb, Nat.not_lt_zero]
    | succ j =>
      rw [Nat.testBit_xor, Nat.testBit_add_one, Nat.testBit_add_one, ← Nat.testBit_xor]
      rcases Nat.mod_two_eq_zero_or_one h with he | ho
      · have hm : 0 < h / 2 := by omega
        have h1 : (h - 1) / 2 = h / 2 - 1 := by omega
        rw [h1, ih (h / 2) (by omega) hm j, decide_eq_decide]
        constructor
        · intro hq q hq'
          cases q with
          | zero =>
            rw [Nat.testBit_zero]
            simp [he]
          | succ q =>
            rw [Nat.testBit_add_one]
            exact hq q (by omega)
        · intro hq q hq'
          have := hq (q + 1) (by omega)
          rw [Nat.testBit_add_one] at this
          exact this
      · have h1 : (h - 1) / 2 = h / 2 := by omega
        rw [h1]
        have hP : ¬(∀ q, q < j + 1 → h.testBit q = false) := by
          intro hP
          have h0 := hP 0 (by omega)
          rw [Nat.testBit_zero] at h0
          simp [ho] at h0
        simp [Nat.xor_self, hP]

/-- The XOR of `o - 2 ^ p` (64-bit wrap-around) with `o` is the span of bits
from `p` up to and including the first set bit of `o` at or above `p` (to
the top bit when there is none). -/
theorem sub_flip_testBit (o p i : Nat) (ho : o < 2 ^ 64) (hp : p < 64) (hi : i < 64) :
    (sub64 o (2 ^ p) ^^^ o).testBit i =
      decide (p ≤ i ∧ ∀ q, p ≤ q → q < i → o.testBit q = false) := by
  have hppos : (0:Nat) < 2 ^ p := Nat.pos_pow_of_pos p (by omega)
  have hplt : (2:Nat) ^ p < 2 ^ 64 := Nat.pow_lt_pow_right (by omega) hp
  have hU : U64 = 2 ^ 64 := by norm_num [U64]
  have hsub : sub64 o (2 ^ p) = (o + 2 ^ 64 - 2 ^ p) % 2 ^ 64 := by
    unfold sub64
    rw [hU, Nat.mod_eq_of_lt hplt]
  have hodm : o = o / 2 ^ p * 2 ^ p + o % 2 ^ p := by
    conv_lhs => rw [← Nat.div_add_mod o (2 ^ p)]
    rw [Nat.mul_comm]
  have hlo : o % 2 ^ p < 2 ^ p := Nat.mod_lt o hppos
  have hobit : ∀ j, o.testBit j =
      if j < p then (o % 2 ^ p).testBit j else (o / 2 ^ p).testBit (j - p) := by
    intro j
    conv_lhs => rw [hodm]
    exact testBit_split _ _ _ _ hlo
  have hHbit : ∀ j, (o / 2 ^ p).testBit j = o.testBit (p + j) := by
    intro j
    rw [← Nat.shiftRight_eq_div_pow, Nat.testBit_shiftRight]
  by_cases hH : o / 2 ^ p = 0
  · have hop : o < 2 ^ p := by
      by_contra hge
      have h1 : 1 ≤ o / 2 ^ p := (Nat.one_le_div_iff hppos).mpr (by omega)
      omega
    have holo : o = o % 2 ^ p := (Nat.mod_eq_of_lt hop).symm
    have h64 : (2:Nat) ^ 64 - 2 ^ p = (2 ^ (64 - p) - 1) * 2 ^ p := by
      have hpp : (2:Nat) ^ (64 - p) * 2 ^ p = 2 ^ 64 := by
        rw [← pow_add]
        congr 1
        omega
      rw [Nat.sub_one_mul, hpp]
    have hA : sub64 o (2 ^ p) = (2 ^ (64 - p) - 1) * 2 ^ p + o % 2 ^ p := by
      rw [hsub, Nat.mod_eq_of_lt (by omega), ← h64]
      omega
    rw [hA, Nat.testBit_xor, testBit_split _ _ _ _ hlo]
    rcases Nat.lt_or_ge i p with hip | hip
    · rw [if_pos hip, hobit i, if_pos hip, Bool.xor_self]
      exact (decide_eq_false (fun hcon => (by omega : ¬ p ≤ i) hcon.1)).symm
    · have hov : ∀ q, p ≤ q → o.testBit q = false := fun q hq =>
        Nat.testBit_lt_two_pow (lt_of_lt_of_le hop (Nat.pow_le_pow_right (by omega) hq))
      rw [if_neg (by omega), Nat.testBit_two_pow_sub_one, hov i hip, Bool.xor_false,
        decide_eq_decide]
      constructor
      · intro h2
        exact ⟨hip, fun q hq _ => hov q hq⟩
      · intro h2
        omega
  · have hHpos : 0 < o / 2 ^ p := Nat.pos_of_ne_zero hH
    have hople : 2 ^ p ≤ o := by
      calc (2:Nat) ^ p = 1 * 2 ^ p := (Nat.one_mul _).symm
        _ ≤ o / 2 ^ p * 2 ^ p := Nat.mul_le_mul_right _ hHpos
        _ ≤ o := by omega
    have hA : sub64 o (2 ^ p) = (o / 2 ^ p - 1) * 2 ^ p + o % 2 ^ p := by
      have hd : 2 ^ p ≤ o / 2 ^ p * 2 ^ p := Nat.le_mul_of_pos_left _ hHpos
      rw [hsub]
      have h1 : o + 2 ^ 64 - 2 ^ p = (o - 2 ^ p) + 2 ^ 64 := by omega
      rw [h1, Nat.add_mod_right, Nat.mod_eq_of_lt (by omega)]
      rw [Nat.sub_one_mul]
      omega
    rw [hA, Nat.testBit_xor, testBit_split _ _ _ _ hlo]
    rcases Nat.lt_or_ge i p with hip | hip
    · rw [if_pos hip, hobit i, if_pos hip, Bool.xor_self]
      exact (decide_eq_false (fun hcon => (by omega : ¬ p ≤ i) hcon.1)).symm
    · rw [if_neg (by omega), hobit i, if_neg (by omega), ← Nat.testBit_xor]
      rw [pred_xor_testBit _ hHpos, decide_eq_decide]
      constructor
      · intro hq
        refine ⟨hip, fun q hpq hqi => ?_⟩
        have := hq (q - p) (by omega)
        rw [hHbit] at this
        rw [show p + (q - p) = q from by omega] at this
        exact this
      · intro hq q hqj
        rw [hHbit]
        exact hq.2 (p + q) (by omega) (by omega)


/-- The upward half of the Hyperbola trick: bit `i` of `(o - 2r) ^^^ o` is
set exactly for the squares above `s` up to and including the first blocker. -/
theorem hyperA_testBit (o s i : Nat) (ho : o < 2 ^ 64) (hs : s < 64) (hi : i < 64) :
    (sub64 o (2 * 2 ^ s) ^^^ o).testBit i =
      decide (s < i ∧ ∀ q, q < i → s < q → o.testBit q = false) := by
  by_cases hs63 : s = 63
  · subst hs63
    have h2 : (2 * 2 ^ 63 : Nat) = 2 ^ 64 := by norm_num
    have hsub : sub64 o (2 * 2 ^ 63) = o := by
      unfold sub64
      rw [h2]
      have hm : (2:Nat) ^ 64 % U64 = 0 := by norm_num [U64]
      rw [hm, Nat.sub_zero, Nat.add_mod_right, Nat.mod_eq_of_lt]
      show o < U64
      rw [show U64 = 2 ^ 64 from by norm_num [U64]]
      exact ho
    rw [hsub, Nat.xor_self, Nat.zero_testBit]
    exact (decide_eq_false (fun hcon => by omega)).symm
  · have hlt : s + 1 < 64 := by omega
    have h2 : (2 * 2 ^ s : Nat) = 2 ^ (s + 1) := by ring
    rw [h2, sub_flip_testBit o (s + 1) i ho hlt hi, decide_eq_decide]
    constructor
    · rintro ⟨h1, h3⟩
      exact ⟨by omega, fun q hq hq' => h3 q (by omega) hq⟩
    · rintro ⟨h1, h3⟩
      exact ⟨by omega, fun q hq hq' => h3 q hq' (by omega)⟩

/-- The downward half of the Hyperbola trick, through the bit reversal. -/
theorem hyperB_testBit (o s t : Nat) (ho : o < 2 ^ 64) (hs : s < 64) (ht : t < 64) :
    (BitBoard.reverse (sub64 (BitBoard.reverse o)
        (2 * BitBoard.reverse (2 ^ s))) ^^^ o).testBit t =
      decide (t < s ∧ ∀ q, q < s → t < q → o.testBit q = false) := by
  rw [reverse_pow s hs]
  by_cases hs0 : s = 0
  · subst hs0
    have h2 : (2 * 2 ^ (63 - 0) : Nat) = 2 ^ 64 := by norm_num
    have hsub : sub64 (BitBoard.reverse o) (2 * 2 ^ (63 - 0)) = BitBoard.reverse o := by
      unfold sub64
      rw [h2]
      have hm : (2:Nat) ^ 64 % U64 = 0 := by norm_num [U64]
      rw [hm, Nat.sub_zero, Nat.add_mod_right, Nat.mod_eq_of_lt]
      show BitBoard.reverse o < U64
      rw [show U64 = 2 ^ 64 from by norm_num [U64]]
      exact reverse_lt o
    rw [hsub, reverse_reverse o ho, Nat.xor_self, Nat.zero_testBit]
    exact (decide_eq_false (fun hcon => by omega)).symm
  · have hp : 64 - s < 64 := by omega
    have h2 : (2 * 2 ^ (63 - s) : Nat) = 2 ^ (64 - s) := by
      rw [show (2 * 2 ^ (63 - s) : Nat) = 2 ^ (63 - s + 1) from by ring]
      congr 1
      omega
    rw [h2, Nat.testBit_xor, reverse_testBit _ t ht]
    have hrevo : o.testBit t = (BitBoard.reverse o).testBit (63 - t) := by
      rw [reverse_testBit _ (63 - t) (by omega), show 63 - (63 - t) = t from by omega]
    rw [hrevo, ← Nat.testBit_xor,
      sub_flip_testBit (BitBoard.reverse o) (64 - s) (63 - t) (reverse_lt o) hp (by omega),
      decide_eq_decide]
    constructor
    · rintro ⟨h1, h3⟩
      refine ⟨by omega, fun q hq hq' => ?_⟩
      have h4 := h3 (63 - q) (by omega) (by omega)
      rw [reverse_testBit _ (63 - q) (by omega), show 63 - (63 - q) = q from by omega] at h4
      exact h4
    · rintro ⟨h1, h3⟩
      refine ⟨by omega, fun q' hq1 hq2 => ?_⟩
      rw [reverse_testBit _ q' (by omega)]
      exact h3 (63 - q') (by omega) (by omega)


/-- The reachability condition of the specification, for a target square
`t`: `t` lies on the line, differs from the moving piece's square, and every
line square strictly between the two is not occupied by a blocker (so rays
stop at, and include, the first blocker, friendly or not). -/
def hyperbolaSpecCond (square blockers mask t : Nat) : Bool :=
  BitBoard.mem mask t && (t != square) &&
    ((List.range 64).all fun q =>
      !(decide (min square t < q) && decide (q < max square t) &&
        BitBoard.mem mask q && BitBoard.mem blockers q))

/-- The specification's description of `BitBoard::Hyperbola`, stated
directly as a set of squares. -/
def HyperbolaSpec (square blockers mask : Nat) : Nat :=
  (List.range 64).foldl
    (fun acc t => if hyperbolaSpecCond square blockers mask t then acc ||| sqBB t else acc) 0

theorem sqBB_lt (u : Nat) : sqBB u < 2 ^ 64 := by
  unfold sqBB
  rw [show U64 = 2 ^ 64 from by norm_num [U64]]
  exact Nat.mod_lt _ (by norm_num)

theorem sqBB_oob (u : Nat) (hu : 64 ≤ u) : sqBB u = 0 := by
  unfold sqBB
  rw [Nat.shiftLeft_eq, Nat.one_mul]
  have h2 : (2:Nat) ^ u = 2 ^ 64 * 2 ^ (u - 64) := by
    rw [← pow_add]
    congr 1
    omega
  rw [show U64 = 2 ^ 64 from by norm_num [U64], h2, Nat.mul_mod_right]

theorem mem_eq_testBit (b t : Nat) (hb : b < 2 ^ 64) : BitBoard.mem b t = b.testBit t := by
  by_cases ht : t < 64
  · unfold BitBoard.mem
    rw [sqBB_eq t ht, Nat.and_two_pow]
    cases h : b.testBit t <;> simp [h]
  · unfold BitBoard.mem
    rw [sqBB_oob t (by omega)]
    have hbt : b.testBit t = false :=
      Nat.testBit_lt_two_pow (lt_of_lt_of_le hb
        (Nat.pow_le_pow_right (by omega) (by omega : 64 ≤ t)))
    simp [hbt]

theorem foldl_or_lt (f : Nat → Bool) (l : List Nat) :
    ∀ init, init < 2 ^ 64 →
      (l.foldl (fun acc u => if f u then acc ||| sqBB u else acc) init) < 2 ^ 64 := by
  induction l with
  | nil =>
    intro init h
    exact h
  | cons u l ih =>
    intro init h
    rw [List.foldl_cons]
    refine ih _ ?_
    split_ifs
    · exact Nat.or_lt_two_pow h (sqBB_lt u)
    · exact h

theorem foldl_or_testBit (f : Nat → Bool) (t : Nat) (ht : t < 64) :
    ∀ (l : List Nat), (∀ u ∈ l, u < 64) → ∀ init,
      (l.foldl (fun acc u => if f u then acc ||| sqBB u else acc) init).testBit t =
      (init.testBit t || (decide (t ∈ l) && f t)) := by
  intro l
  induction l with
  | nil =>
    intro _ init
    simp
  | cons u l ih =>
    intro hl init
    rw [List.foldl_cons, ih (fun v hv => hl v (List.mem_cons_of_mem u hv))]
    have hbit : (sqBB u).testBit t = decide (u = t) := by
      rw [sqBB_eq u (hl u (List.mem_cons_self u l)), Nat.testBit_two_pow]
    by_cases hfu : f u = true
    · rw [if_pos hfu, Nat.testBit_or, hbit]
      by_cases htu : u = t
      · subst htu
        simp only [List.mem_cons, decide_eq_true_eq]
        simp [hfu]
      · have htu' : ¬ t = u := fun h => htu h.symm
        simp only [List.mem_cons]
        simp [htu, htu']
    · rw [if_neg hfu]
      rw [Bool.not_eq_true] at hfu
      by_cases htu : u = t
      · subst htu
        simp [hfu, List.mem_cons]
      · have htu' : ¬ t = u := fun h => htu h.symm
        simp [List.mem_cons, htu']

theorem hyperbolaSpec_testBit (square blockers mask t : Nat) (ht : t < 64) :
    (HyperbolaSpec square blockers mask).testBit t =
      hyperbolaSpecCond square blockers mask t := by
  unfold HyperbolaSpec
  rw [foldl_or_testBit (hyperbolaSpecCond square blockers mask) t ht (List.range 64)
    (fun u hu => List.mem_range.mp hu) 0]
  simp [List.mem_range, ht]

theorem hyperbolaSpec_lt (square blockers mask : Nat) :
    HyperbolaSpec square blockers mask < 2 ^ 64 := by
  unfold HyperbolaSpec
  exact foldl_or_lt _ _ 0 (by norm_num)


/-- `BitBoard::Hyperbola` computes exactly the specification's ray set on
any 64-bit mask: both directions, stopping at and including the first
blocker, excluding the piece's own square, not masking friendly pieces. -/
theorem hyperbola_eq_spec (square blockers mask : Nat) (hsq : square < 64)
    (hmask : mask < 2 ^ 64) (hblk : blockers < 2 ^ 64) :
    BitBoard.Hyperbola square blockers mask = HyperbolaSpec square blockers mask := by
  have ho : blockers &&& mask < 2 ^ 64 := lt_of_le_of_lt Nat.and_le_right hmask
  refine Nat.eq_of_testBit_eq fun t => ?_
  by_cases ht : t < 64
  case neg =>
    have h1 : BitBoard.Hyperbola square blockers mask < 2 ^ 64 := by
      unfold BitBoard.Hyperbola
      exact lt_of_le_of_lt Nat.and_le_right hmask
    have h2 := hyperbolaSpec_lt square blockers mask
    rw [Nat.testBit_lt_two_pow (lt_of_lt_of_le h1
        (Nat.pow_le_pow_right (by omega) (by omega : 64 ≤ t))),
      Nat.testBit_lt_two_pow (lt_of_lt_of_le h2
        (Nat.pow_le_pow_right (by omega) (by omega : 64 ≤ t)))]
  case pos =>
    rw [hyperbolaSpec_testBit square blockers mask t ht]
    simp only [BitBoard.Hyperbola]
    rw [sqBB_eq square hsq, Nat.testBit_and, Nat.testBit_xor]
    have hA := hyperA_testBit (blockers &&& mask) square t ho hsq ht
    have hB := hyperB_testBit (blockers &&& mask) square t ho hsq ht
    rw [Nat.testBit_xor] at hA hB
    have hcomb : ∀ a b c dU dD : Bool,
        (a.xor c) = dU → (b.xor c) = dD → (a.xor b) = dU.xor dD := by decide
    rw [hcomb _ _ _ _ _ hA hB]
    unfold hyperbolaSpecCond
    simp only [mem_eq_testBit mask _ hmask, mem_eq_testBit blockers _ hblk,
      Nat.testBit_and]
    rcases Nat.lt_trichotomy square t with hst | hst | hst
    · have hdown : decide (t < square ∧ ∀ q, q < square → t < q →
          (blockers.testBit q && mask.testBit q) = false) = false :=
        decide_eq_false (fun h => absurd h.1 (by omega))
      rw [hdown, Bool.xor_false]
      have hne : (t != square) = true := by
        simp only [bne_iff_ne, ne_eq]
        omega
      rw [hne]
      by_cases hm : mask.testBit t = true
      · rw [hm, Bool.and_true, Bool.true_and]
        rw [Nat.min_eq_left (by omega : square ≤ t), Nat.max_eq_right (by omega : square ≤ t)]
        rw [Bool.eq_iff_iff]
        simp only [Bool.true_and, Bool.and_true, Bool.and_eq_true, decide_eq_true_eq,
          List.all_eq_true, List.mem_range, Bool.not_eq_true', Bool.and_eq_false_iff,
          decide_eq_false_iff_not, not_lt]
        constructor
        · rintro ⟨-, hq⟩ q hq64
          by_cases h1 : q < t
          · by_cases h2 : square < q
            · rcases hq q h1 h2 with h4 | h4 <;> tauto
            · have h3 : q ≤ square := by omega
              tauto
          · have h3 : t ≤ q := by omega
            tauto
        · intro hq
          refine ⟨hst, fun q hq1 hq2 => ?_⟩
          have h4 := hq q (by omega)
          by_cases hmq : mask.testBit q = true
          · by_cases hbq : blockers.testBit q = true
            · exfalso
              simp only [hmq, hbq] at h4
              simp at h4
              omega
            · have hbq' : blockers.testBit q = false := by simpa using hbq
              tauto
          · have hmq' : mask.testBit q = false := by simpa using hmq
            tauto
      · have hm' : mask.testBit t = false := by simpa using hm
        rw [hm']
        simp
    · have hup : decide (square < t ∧ ∀ q, q < t → square < q →
          (blockers.testBit q && mask.testBit q) = false) = false :=
        decide_eq_false (fun h => absurd h.1 (by omega))
      have hdown : decide (t < square ∧ ∀ q, q < square → t < q →
          (blockers.testBit q && mask.testBit q) = false) = false :=
        decide_eq_false (fun h => absurd h.1 (by omega))
      have hne : (t != square) = false := by
        simp only [bne_eq_false_iff_eq]
        omega
      rw [hup, hdown, hne]
      simp
    · have hup : decide (square < t ∧ ∀ q, q < t → square < q →
          (blockers.testBit q && mask.testBit q) = false) = false :=
        decide_eq_false (fun h => absurd h.1 (by omega))
      rw [hup, Bool.false_xor]
      have hne : (t != square) = true := by
        simp only [bne_iff_ne, ne_eq]
        omega
      rw [hne]
      by_cases hm : mask.testBit t = true
      · rw [hm, Bool.and_true, Bool.true_and]
        rw [Nat.min_eq_right (by omega : t ≤ square), Nat.max_eq_left (by omega : t ≤ square)]
        rw [Bool.eq_iff_iff]
        simp only [Bool.true_and, Bool.and_true, Bool.and_eq_true, decide_eq_true_eq,
          List.all_eq_true, List.mem_range, Bool.not_eq_true', Bool.and_eq_false_iff,
          decide_eq_false_iff_not, not_lt]
        constructor
        · rintro ⟨-, hq⟩ q hq64
          by_cases h1 : q < square
          · by_cases h2 : t < q
            · rcases hq q h1 h2 with h4 | h4 <;> tauto
            · have h3 : q ≤ t := by omega
              tauto
          · have h3 : square ≤ q := by omega
            tauto
        · intro hq
          refine ⟨hst, fun q hq1 hq2 => ?_⟩
          have h4 := hq q (by omega)
          by_cases hmq : mask.testBit q = true
          · by_cases hbq : blockers.testBit q = true
            · exfalso
              simp only [hmq, hbq] at h4
              simp at h4
              omega
            · have hbq' : blockers.testBit q = false := by simpa using hbq
              tauto
          · have hmq' : mask.testBit q = false := by simpa using hmq
            tauto
      · have hm' : mask.testBit t = false := by simpa using hm
        rw [hm']
        simp


/-- C8: for every square, every 64-bit blocker set and every line mask (a
file, rank, diagonal or anti-diagonal bitboard containing the square),
`BitBoard::Hyperbola(square, blockers, mask)` returns exactly the squares
of the line reachable from the square in both directions, stopping at and
including the first blocker on each side, excluding the square itself and
without masking off any squares occupied by friendly pieces —
`HyperbolaSpec`, the direct rendering of that description. -/
theorem c8_hyperbola_spec (square blockers mask : Nat) (hsq : square < 64)
    (hblk : blockers < 2 ^ 64)
    (hline : (∃ f, f < 8 ∧ mask = BitBoards.File f) ∨
      (∃ r, r < 8 ∧ mask = BitBoards.Rank r) ∨
      (∃ d, d < 15 ∧ mask = BitBoards.Diagonal d) ∨
      (∃ d, d < 15 ∧ mask = BitBoards.AntiDiagonal d))
    (hmem : BitBoard.mem mask square = true) :
    BitBoard.Hyperbola square blockers mask = HyperbolaSpec square blockers mask := by
  refine hyperbola_eq_spec square blockers mask hsq ?_ hblk
  rcases hline with ⟨f, hf, rfl⟩ | ⟨r, hr, rfl⟩ | ⟨d, hd, rfl⟩ | ⟨d, hd, rfl⟩
  · exact (by decide : ∀ f, f < 8 → BitBoards.File f < 2 ^ 64) f hf
  · exact (by decide : ∀ r, r < 8 → BitBoards.Rank r < 2 ^ 64) r hr
  · exact (by decide : ∀ d, d < 15 → BitBoards.Diagonal d < 2 ^ 64) d hd
  · exact (by decide : ∀ d, d < 15 → BitBoards.AntiDiagonal d < 2 ^ 64) d hd

/-- Witness: a ray on the e-file from e4 with blockers on e2, e7 and d5:
`Hyperbola` and the specification's ray set agree. -/
theorem c8_hyperbola_spec_witness :
    BitBoard.mem (BitBoards.File 4) 28 = true ∧
      BitBoard.Hyperbola 28 (sqBB 12 ||| sqBB 52 ||| sqBB 35) (BitBoards.File 4) =
        HyperbolaSpec 28 (sqBB 12 ||| sqBB 52 ||| sqBB 35) (BitBoards.File 4) :=
  ⟨by decide, c8_hyperbola_spec 28 (sqBB 12 ||| sqBB 52 ||| sqBB 35) (BitBoards.File 4)
    (by decide) (by decide) (Or.inl ⟨4, by decide, rfl⟩) (by decide)⟩


end Chess
